import Mathlib

/-!
streamdvr: the batch scheduler, the capture monitor and the capture lifecycle

A shallow embedding of `src/plugins/basic.js` (class `Basic`) and `src/core/site.js`
(class `Site`).

Conventions of the embedding.

* The registry `streamerList` is a JavaScript `Map` keyed by uid.  Both places that insert
  into it (`Basic.constructor`, `Site.addStreamer`) use the record's own `uid` field as the
  key and no code assigns to `uid`, so the map is represented by the list of its values in
  insertion order and a lookup compares the `uid` field.  A `Map` has no two entries with
  one key: `Site.WellFormed` states it.
* A method that writes to the log, signals a process, asks the terminal UI to render or
  starts an asynchronous status check returns the list of those effects (`Event`) in the
  order the code performs them, next to the new state.
* Numeric properties that a record may lack are `JsNum`: the records made by
  `Basic.constructor` have no `filesize` and no `stuckcounter`.
* `while` loops take a fuel argument and return `none` when it runs out.
* A method that can be left through an exception returns `Except` (`Site.pause`) or
  records it in its result (`CheckResult.threw`).
* A record is a JavaScript object and a caller may hold it across an `await` or in a
  closure: `Basic.checkStreamerState` takes it from the registry before it awaits the status
  script, and the `close` handler of `Site.startCapture` closes over it.  Meanwhile
  `Site.removeStreamer` may have deleted the uid, and `Site.addStreamer` may have put a new
  object under it.  A method that assigns to a record it was handed (`Site.storeCapInfo`,
  and through it `Site.startCapture` and the `close` handler) therefore takes, next to the
  fields of that object, a `Held` that says whether the registry still holds this very
  object: only then does the assignment show in the registry.
-/

namespace StreamDvr

/-! ## Batch scheduler (`Basic.serialize`, `src/plugins/basic.js`) -/

/-- The inner loop of `Basic.serialize`:
`for (let i = count; (i < limit) && (i < nms.length); i++) { parBatch.push(nms[i]); count++; }`.
The state is `i`, `count` and `parBatch`; the result is `count` and `parBatch` at exit. -/
def Basic.serializeFor {α : Type} (nms : List α) (limit : Int) :
    Nat → Nat → Nat → List α → Option (Nat × List α)
  | 0, _, _, _ => none
  | fuel + 1, i, count, parBatch =>
    if h : (i : Int) < limit ∧ i < nms.length then
      Basic.serializeFor nms limit fuel (i + 1) (count + 1) (parBatch ++ [nms[i]])
    else
      some (count, parBatch)

/-- The outer loop of `Basic.serialize`: `while (count < nms.length) { ... }`, with
`limit = count + batchSize` computed at the start of every pass. -/
def Basic.serializeWhile {α : Type} (nms : List α) (batchSize : Int) :
    Nat → Nat → List (List α) → Option (List (List α))
  | 0, _, _ => none
  | fuel + 1, count, serRuns =>
    if count < nms.length then
      match Basic.serializeFor nms ((count : Int) + batchSize) fuel count count [] with
      | none => none
      | some (count1, parBatch) =>
        Basic.serializeWhile nms batchSize fuel count1 (serRuns ++ [parBatch])
    else
      some serRuns

/-- `Basic.serialize(nms)`.  `cfgBatchSize` is `this.siteConfig.batchSize`: `none` when the
site configuration does not define it, otherwise the configured integer. -/
def Basic.serialize {α : Type} (cfgBatchSize : Option Int) (nms : List α) (fuel : Nat) :
    Option (List (List α)) :=
  let batchSize : Int :=
    match cfgBatchSize with
    | none => 5
    | some b => if b = 0 then (nms.length : Int) else b
  Basic.serializeWhile nms batchSize fuel 0 []

/-- The batches of width `k` cut from `nms` from offset `c` on: batch `i` is
`nms[c + i*k .. c + (i+1)*k)`.  Used to describe the result of `Basic.serialize`. -/
def batchesFrom {α : Type} (nms : List α) (k c : Nat) : List (List α) :=
  (List.range ((nms.length - c + k - 1) / k)).map (fun i => (nms.drop (c + i * k)).take k)

/-! ## Data model (`src/core/site.js`) -/

/-- A numeric property of a streamer record: absent (`undefined`), `NaN`, or a number.
The numbers stored by the code are file sizes in MB and counters, all non-negative
integers. -/
inductive JsNum where
  | undefined
  | nan
  | num (n : Nat)
  deriving DecidableEq, Repr

/-- The JavaScript `x === n` for a number `n`. -/
def JsNum.strictEq (x : JsNum) (n : Nat) : Bool :=
  match x with
  | .num m => m == n
  | _ => false

/-- The JavaScript `x++`: `undefined` and `NaN` become `NaN`. -/
def JsNum.incr (x : JsNum) : JsNum :=
  match x with
  | .num m => .num (m + 1)
  | _ => .nan

/-- The JavaScript `x >= n` for a number `n`: false for `undefined` and `NaN`. -/
def JsNum.ge (x : JsNum) (n : Nat) : Bool :=
  match x with
  | .num m => decide (n ≤ m)
  | _ => false

/-- The handle returned by `spawn`; `pid` is `none` when the process could not be
started. -/
structure CaptureProcess where
  pid : Option Nat
  deriving DecidableEq, Repr

/-- A streamer record (see `Site.addStreamer`).  `filesize`, `stuckcounter`, `isTemp` and
`paused` are absent from the records made by `Basic.constructor`. -/
structure Streamer where
  uid : String
  nm : String
  site : String
  state : String
  filename : String
  captureProcess : Option CaptureProcess
  postProcess : Nat
  filesize : JsNum
  stuckcounter : JsNum
  isTemp : Option Bool
  paused : Option Bool
  deriving DecidableEq, Repr

/-- An entry of `dvr.postProcessQ`: `{site: this, streamer: streamer, filename: ...}`; the
site is named by its `siteName`. -/
structure PostProcessEntry where
  site : String
  streamer : Streamer
  filename : String
  deriving DecidableEq, Repr

/-- The parts of the `dvr` object that `Site` reads or writes. -/
structure Dvr where
  maxSize : Nat
  minSize : Nat
  captureDirectory : String
  autoConvertType : String
  includeSiteInFile : Bool
  proxyEnable : Bool
  proxyServer : String
  debugLog : Bool
  debugRecorder : Bool
  tuiEnable : Bool
  tryingToExit : Bool
  postProcessQ : List PostProcessEntry
  deriving DecidableEq, Repr

/-- The site configuration file `<plugin>.yml`.  An absent or empty `username` or
`password` is the empty string (both are only tested for truthiness); `siteUrl` is `none`
when the file does not define it. -/
structure SiteConfig where
  streamers : List String
  batchSize : Option Int
  siteUrl : Option String
  recorder : String
  username : String
  password : String
  deriving DecidableEq, Repr

/-- The state of a `Site` object. -/
structure Site where
  siteName : String
  padName : String
  listName : String
  siteDir : String
  dvr : Dvr
  siteConfig : SiteConfig
  tempList : List String
  streamerList : List Streamer
  streamerListDamaged : Bool
  deriving DecidableEq, Repr

/-- The texts written to the log, one constructor per message of the source, with the
values the message prints. -/
inductive Msg where
  | fileSize (filename : String) (sizeMB maxSize : Nat)
  | stuck (nm : String) (counter : JsNum) (sizeMB : Nat)
  | terminatingStuck (nm : String)
  | exceededSize (nm : String) (sizeMB maxSize : Nat)
  | addedToList (nm : String) (temporarily : Bool)
  | alreadyInList (nm : String)
  | alreadyCapturing (nm : String)
  | startingRecording (cmd : String)
  | recordingStarted (nm : String) (file : String)
  | outputNotFound (nm : String) (filename : String) (convertType : String)
  | statFailed (nm : String) (error : String)
  | autoDeleted (nm : String) (sizeBytes : Nat) (minSize : Nat)
  | paused (nm : String)
  | unpaused (nm : String)
  | removedFromList (nm : String)
  | notInList (nm : String)
  | streamersInConfig (count : Nat)
  | missingSiteUrl (siteName : String)
  deriving DecidableEq, Repr

/-- What a method does to the world outside the `Site` object. -/
inductive Event where
  | info (m : Msg)
  | err (m : Msg)
  | dbg (m : Msg)
  | kill (uid : String) (pid : Option Nat) (signal : String)
  | tuiRender (listDamaged : Bool)
  | checkStreamerState (uid : String)
  | spawn (script : String) (args : List String)
  | logStream (path : String)
  | unlink (path : String)
  | postProcess
  | tuiAddSite (siteName : String)
  deriving DecidableEq, Repr

/-- The argument `id` of `addStreamer`, `removeStreamer` and `updateList`. -/
structure Id where
  nm : String
  uid : String
  deriving DecidableEq, Repr

/-- The argument `options` of `updateList`, `addStreamer` and `refresh`; a field is `none`
when the caller left it out. -/
structure Options where
  add : Option Bool
  pause : Nat
  isTemp : Option Bool
  init : Option Bool
  deriving DecidableEq, Repr

/-- `this.streamerList.get(uid)`. -/
def Site.get? (site : Site) (uid : String) : Option Streamer :=
  site.streamerList.find? (fun s => s.uid == uid)

/-- `this.streamerList.has(uid)`. -/
def Site.has (site : Site) (uid : String) : Bool :=
  (site.get? uid).isSome

/-- The registry after `f` is applied to the record that `this.streamerList.get(uid)`
returns, the first record with that uid. -/
def updateFirst (uid : String) (f : Streamer → Streamer) : List Streamer → List Streamer
  | [] => []
  | s :: rest => if s.uid == uid then f s :: rest else s :: updateFirst uid f rest

/-- Assignment to fields of the record that `this.streamerList.get(uid)` returns. -/
def Site.modify (site : Site) (uid : String) (f : Streamer → Streamer) : Site :=
  { site with streamerList := updateFirst uid f site.streamerList }

/-- No two entries of the registry have the same key. -/
def Site.WellFormed (site : Site) : Prop :=
  (site.streamerList.map (fun s => s.uid)).Nodup

instance (site : Site) : Decidable site.WellFormed :=
  inferInstanceAs (Decidable (List.Nodup _))

/-- The kill signals among a list of effects that went to the capture process of `uid`. -/
def killsOf (uid : String) (events : List Event) : List Event :=
  events.filter (fun e =>
    match e with
    | .kill u _ _ => u == uid
    | _ => false)

/-- All kill signals among a list of effects. -/
def kills (events : List Event) : List Event :=
  events.filter (fun e =>
    match e with
    | .kill _ _ _ => true
    | _ => false)

/-- `Site.dbgMsg`: written only when `dvr.config.debug.log` is set. -/
def Site.dbgMsg (site : Site) (m : Msg) : List Event :=
  if site.dvr.debugLog then [Event.dbg m] else []

/-- `Site.render(listDamaged)`. -/
def Site.render (site : Site) (listDamaged : Bool) : List Event :=
  if site.dvr.tuiEnable then [Event.tuiRender (listDamaged || site.streamerListDamaged)]
  else []

/-- `Site.refresh(streamer, options)`: starts `this.checkStreamerState(streamer.uid)`, the
status check of the site plugin. -/
def Site.refresh (site : Site) (uid : String) (options : Option Options) : List Event :=
  if !site.dvr.tryingToExit && site.has uid then
    match options with
    | none => [Event.checkStreamerState uid]
    | some o => if o.init = some true then [] else [Event.checkStreamerState uid]
  else []

/-- `Site.haltCapture(uid)`. -/
def Site.haltCapture (site : Site) (uid : String) : Site × List Event :=
  match site.get? uid with
  | some streamer =>
    match streamer.captureProcess with
    | some captureProcess =>
      if streamer.postProcess = 0 then
        (site, [Event.kill streamer.uid captureProcess.pid "SIGINT"])
      else (site, [])
    | none => (site, [])
  | none => (site, [])

/-- `Site.haltAllCaptures()`. -/
def Site.haltAllCaptures (site : Site) : Site × List Event :=
  (site, site.streamerList.flatMap (fun streamer =>
    match streamer.captureProcess with
    | some captureProcess =>
      if streamer.postProcess = 0 then
        [Event.kill streamer.uid captureProcess.pid "SIGINT"]
      else []
    | none => []))

/-- `Math.round(stat.size / 1048576)` for a file size in bytes: the division by `2^20` is
exact in double precision and `Math.round` rounds halves up. -/
def roundMB (size : Nat) : Nat :=
  (size + 524288) / 1048576

/-- The result of `checkFileSize`: `threw` is set when `fs.statSync` raised (the file
does not exist) and the method was left through the exception. -/
structure CheckResult where
  site : Site
  events : List Event
  threw : Bool
  deriving DecidableEq, Repr

/-- One pass of the loop body of `Site.checkFileSize`, for the `i`-th record of the
registry.  `stat path` is the size in bytes that `fs.statSync(path)` reports, `none` when
it throws. -/
def Site.checkFileSizeIter (stat : String → Option Nat) (site : Site) (i : Nat) :
    CheckResult :=
  match site.streamerList[i]? with
  | none => ⟨site, [], false⟩
  | some streamer =>
    if streamer.captureProcess = none ∨ streamer.postProcess ≠ 0 then
      ⟨site, [], false⟩
    else
      match stat (site.dvr.captureDirectory ++ "/" ++ streamer.filename) with
      | none => ⟨site, [], true⟩
      | some size =>
        let maxSize := site.dvr.maxSize
        let sizeMB := roundMB size
        let ev1 := site.dbgMsg (Msg.fileSize streamer.filename sizeMB maxSize)
        let equal := streamer.filesize.strictEq sizeMB
        let ev2 :=
          if equal then [Event.info (Msg.stuck streamer.nm streamer.stuckcounter sizeMB)]
          else []
        let streamer1 :=
          if equal then { streamer with stuckcounter := streamer.stuckcounter.incr }
          else { streamer with filesize := JsNum.num sizeMB }
        let site1 := { site with streamerList := site.streamerList.set i streamer1 }
        if streamer1.stuckcounter.ge 2 then
          let halted := site1.haltCapture streamer1.uid
          let streamer2 := { streamer1 with stuckcounter := JsNum.num 0 }
          ⟨{ halted.1 with
              streamerList := halted.1.streamerList.set i streamer2
              streamerListDamaged := true },
           ev1 ++ ev2 ++ [Event.info (Msg.terminatingStuck streamer.nm)] ++ halted.2,
           false⟩
        else if maxSize ≠ 0 ∧ sizeMB ≥ maxSize then
          let halted := site1.haltCapture streamer1.uid
          ⟨{ halted.1 with streamerListDamaged := true },
           ev1 ++ ev2 ++ [Event.info (Msg.exceededSize streamer.nm sizeMB maxSize)]
             ++ halted.2,
           false⟩
        else
          ⟨site1, ev1 ++ ev2, false⟩

/-- The loop of `Site.checkFileSize` over the records `i, i+1, ...` of the registry, `n`
of them. -/
def Site.checkFileSizeLoop (stat : String → Option Nat) :
    Nat → Nat → Site → List Event → CheckResult
  | 0, _, site, events => ⟨site, events, false⟩
  | n + 1, i, site, events =>
    let r := site.checkFileSizeIter stat i
    if r.threw then ⟨r.site, events ++ r.events, true⟩
    else Site.checkFileSizeLoop stat n (i + 1) r.site (events ++ r.events)

/-- `Site.checkFileSize()`. -/
def Site.checkFileSize (stat : String → Option Nat) (site : Site) : CheckResult :=
  Site.checkFileSizeLoop stat site.streamerList.length 0 site []

/-- `Site.addStreamer(id, list, options)`; the result is the new state, the returned
`added` and the effects. -/
def Site.addStreamer (site : Site) (id : Id) (list : List String) (options : Options) :
    Site × Bool × List Event :=
  let added := !list.contains id.uid
  let ev1 :=
    if added then [Event.info (Msg.addedToList id.nm (options.isTemp = some true))]
    else [Event.err (Msg.alreadyInList id.nm)]
  if !site.has id.uid then
    let site1 := { site with
      streamerList := site.streamerList ++ [
        { uid := id.uid
          nm := id.nm
          site := site.padName
          state := "Offline"
          filename := ""
          captureProcess := none
          postProcess := 0
          filesize := JsNum.num 0
          stuckcounter := JsNum.num 0
          isTemp := options.isTemp
          paused := some false }] }
    let ev2 := site1.render true
    let ev3 := if options.init = some true then [] else site1.refresh id.uid (some options)
    (site1, added, ev1 ++ ev2 ++ ev3)
  else
    (site, added, ev1)

/-- The relation of a record object that a caller holds to the registry.  The registry
holds at most one object under a uid and no code assigns to `uid`, so the object is either
the one that `this.streamerList.get(streamer.uid)` returns (`tracked`), or the registry
does not hold it (`detached`): its uid was deleted, or deleted and added again with a new
object, after the caller took it. -/
inductive Held where
  | tracked
  | detached
  deriving DecidableEq, Repr

/-- `Site.storeCapInfo(streamer, filename, captureProcess)`.  The two assignments go to the
object `streamer`: they change the registry when it holds that object, and leave it as it is
when the object is detached.  `this.render(true)` follows in both cases. -/
def Site.storeCapInfo (site : Site) (streamer : Streamer) (held : Held) (filename : String)
    (captureProcess : Option CaptureProcess) : Site × List Event :=
  let site1 :=
    match held with
    | .tracked => site.modify streamer.uid (fun s =>
        { s with filename := filename, captureProcess := captureProcess })
    | .detached => site
  (site1, site1.render true)

/-- `Site.setupCapture(uid)`. -/
def Site.setupCapture (site : Site) (uid : String) : Bool × List Event :=
  match site.get? uid with
  | some streamer =>
    if streamer.captureProcess ≠ none then
      (false, site.dbgMsg (Msg.alreadyCapturing streamer.nm))
    else (true, [])
  | none => (false, [])

/-- `Site.getFileName(nm)`; `dateTime` is what `dvr.getDateTime()` returns. -/
def Site.getFileName (site : Site) (nm : String) (dateTime : String) : String :=
  let s := if site.dvr.includeSiteInFile then site.listName ++ "_" else ""
  nm ++ "_" ++ s ++ dateTime

/-- `Site.getCaptureArguments(url, filename, options)`; `params` is `options.params`. -/
def Site.getCaptureArguments (site : Site) (url filename : String)
    (params : Option (List String)) : List String :=
  let args := [
    site.dvr.captureDirectory ++ "/" ++ filename ++ ".ts",
    url,
    if site.dvr.proxyEnable then "1" else "0",
    site.dvr.proxyServer,
    if site.dvr.debugRecorder then "1" else "0",
    if site.siteConfig.username ≠ "" then "1" else "0",
    if site.siteConfig.username ≠ "" then
      "--" ++ site.listName ++ "-username=" ++ site.siteConfig.username else "",
    if site.siteConfig.password ≠ "" then
      "--" ++ site.listName ++ "-password=" ++ site.siteConfig.password else ""]
  match params with
  | some p => args ++ p
  | none => args

/-- The object with the fields `spawnArgs`, `filename` and `streamer` that
`Basic.setupCapture` returns; `none` stands for the empty string `""` that the refusal
puts in `spawnArgs` and in `streamer`. -/
structure CapInfo where
  spawnArgs : Option (List String)
  filename : String
  streamer : Option Streamer
  deriving DecidableEq, Repr

/-- `Basic.setupCapture(streamer, url)`. -/
def Basic.setupCapture (site : Site) (streamer : Streamer) (url : String)
    (dateTime : String) : CapInfo × List Event :=
  let ok := site.setupCapture streamer.uid
  if !ok.1 then
    (⟨none, "", none⟩, ok.2)
  else
    let filename := site.getFileName streamer.nm dateTime
    let newurl :=
      if site.siteConfig.recorder = "scripts/record_streamlink.sh" then
        site.siteConfig.siteUrl.getD "undefined" ++ streamer.nm
      else url
    let spawnArgs := site.getCaptureArguments newurl filename none
    (⟨some spawnArgs, filename, some streamer⟩, ok.2)

/-- The test `if (captureProcess.pid)`: the process has a pid and it is not `0`. -/
def CaptureProcess.hasPid (p : CaptureProcess) : Bool :=
  match p.pid with
  | some n => n != 0
  | none => false

/-- `Site.startCapture(capInfo)` up to the registration of the `close` handler, which is
`Site.captureClosed`.  `calcPath` is `dvr.calcPath` and `spawned` is the handle that `spawn`
returns.  `capInfo.streamer` is the object that `Basic.checkStreamerState` took from the
registry before it awaited the status script; `held` says whether the registry still holds
it when `startCapture` runs. -/
def Site.startCapture (site : Site) (calcPath : String → String) (capInfo : CapInfo)
    (held : Held) (spawned : CaptureProcess) : Site × List Event :=
  match capInfo.spawnArgs with
  | none => (site, [])
  | some spawnArgs =>
    let fullname := capInfo.filename ++ ".ts"
    let script := calcPath site.siteConfig.recorder
    let cmd := script ++ " " ++ String.join (spawnArgs.map (fun arg => arg ++ " "))
    let ev1 := site.dbgMsg (Msg.startingRecording cmd)
    let ev2 := [Event.spawn script spawnArgs]
    let ev3 :=
      if site.dvr.debugRecorder then [Event.logStream ("./" ++ capInfo.filename ++ ".log")]
      else []
    match capInfo.streamer with
    | none => (site, ev1 ++ ev2 ++ ev3)
    | some streamer =>
      if spawned.hasPid then
        let stored := site.storeCapInfo streamer held fullname (some spawned)
        (stored.1,
         ev1 ++ ev2 ++ ev3 ++ [Event.info (Msg.recordingStarted streamer.nm fullname)]
           ++ stored.2)
      else (site, ev1 ++ ev2 ++ ev3)

/-- What `fs.stat` passes to its callback. -/
inductive StatResult where
  | enoent
  | error (text : String)
  | stats (size : Nat)
  deriving DecidableEq, Repr

/-- The test `sizeMB < this.dvr.config.recording.minSize` of the `close` handler, with
`sizeMB = stats.size / 1048576` not rounded and `minSize` in whole megabytes. -/
def belowMinSize (size minSize : Nat) : Bool :=
  decide (size < minSize * 1048576)

/-- The `close` handler that `Site.startCapture` registers on the capture process, with the
callback of its `fs.stat` call.  `streamer` and `filename` are `capInfo.streamer` and
`capInfo.filename`, which the handler closed over: `streamer` is the object that
`startCapture` was given, with the fields it has when the process exits, and `held` says
whether the registry holds that object at that time.  `this.refresh(streamer)` is called by
the handler itself and so before the callback runs; it looks the uid up in the registry. -/
def Site.captureClosed (site : Site) (streamer : Streamer) (held : Held) (filename : String)
    (stat : StatResult) : Site × List Event :=
  let fullname := filename ++ ".ts"
  let ev0 := site.refresh streamer.uid none
  match stat with
  | .enoent =>
    let stored := site.storeCapInfo streamer held "" none
    (stored.1,
     ev0 ++ [Event.err (Msg.outputNotFound streamer.nm filename site.dvr.autoConvertType)]
       ++ stored.2)
  | .error text =>
    let stored := site.storeCapInfo streamer held "" none
    (stored.1, ev0 ++ [Event.err (Msg.statFailed streamer.nm text)] ++ stored.2)
  | .stats size =>
    if belowMinSize size site.dvr.minSize then
      let stored := site.storeCapInfo streamer held "" none
      (stored.1,
       ev0 ++ [Event.info (Msg.autoDeleted streamer.nm size site.dvr.minSize),
               Event.unlink (site.dvr.captureDirectory ++ "/" ++ fullname)]
         ++ stored.2)
    else
      let q := site.dvr.postProcessQ ++ [⟨site.siteName, streamer, filename⟩]
      let site1 := { site with dvr := { site.dvr with postProcessQ := q } }
      (site1, ev0 ++ (if q.length = 1 then [Event.postProcess] else []))

/-! ## Membership and pause (`src/core/site.js`), start-up (`src/plugins/basic.js`) -/

/-- `Site.getStreamerList()`: `Array.from(this.streamerList.values())`. -/
def Site.getStreamerList (site : Site) : List Streamer :=
  site.streamerList

/-- `this.streamerList.delete(uid)`. -/
def Site.delete (site : Site) (uid : String) : Site :=
  { site with streamerList := site.streamerList.eraseP (fun s => s.uid == uid) }

/-- `this.streamerList.set(s.uid, s)`: a known key keeps its place and gets the new
record, a new key goes to the end. -/
def Site.set (site : Site) (s : Streamer) : Site :=
  if site.has s.uid then site.modify s.uid (fun _ => s)
  else { site with streamerList := site.streamerList ++ [s] }

/-- `Site.removeStreamer(id)`; the result is the new state, the returned boolean and the
effects. -/
def Site.removeStreamer (site : Site) (id : Id) : Site × Bool × List Event :=
  if site.has id.uid then
    let ev1 := [Event.info (Msg.removedFromList id.nm)]
    let halted := site.haltCapture id.uid
    let site1 := halted.1.delete id.uid
    (site1, true, ev1 ++ halted.2 ++ site1.render true)
  else
    (site, false, [Event.err (Msg.notInList id.nm)])

/-- The array that `updateList` works on:
`options.isTemp ? this.tempList : this.siteConfig.streamers`. -/
def Site.listOf (site : Site) (options : Options) : List String :=
  if options.isTemp = some true then site.tempList else site.siteConfig.streamers

/-- The assignment `this.tempList = list` or `this.siteConfig.streamers = list` at the end
of `updateList`. -/
def Site.storeList (site : Site) (options : Options) (list : List String) : Site :=
  if options.isTemp = some true then { site with tempList := list }
  else { site with siteConfig := { site.siteConfig with streamers := list } }

/-- `_.without(list, uid)`. -/
def without (list : List String) (uid : String) : List String :=
  list.filter (fun x => x != uid)

/-- `Site.updateList(id, options)`; the result is the new state, the returned boolean
(`dirty && !options.isTemp`) and the effects.  `list.push(id.uid)` changes the array that
`this.tempList` or `this.siteConfig.streamers` refers to; it happens exactly when `dirty`
is set, so the new array is stored by `storeList`. -/
def Site.updateList (site : Site) (id : Id) (options : Options) :
    Site × Bool × List Event :=
  let list := site.listOf options
  if options.pause > 0 then
    if site.has id.uid then
      if options.pause = 1 then
        let site1 := site.modify id.uid (fun s => { s with paused := some true })
        let halted := site1.haltCapture id.uid
        (halted.1, false,
         [Event.info (Msg.paused id.nm)] ++ halted.2 ++ halted.1.render true)
      else if options.pause = 2 then
        let site1 := site.modify id.uid (fun s => { s with paused := some false })
        (site1, false,
         [Event.info (Msg.unpaused id.nm)] ++ site1.refresh id.uid (some options)
           ++ site1.render true)
      else
        (site, false, site.render true)
    else
      (site, false, [])
  else if options.add = some true then
    let added := site.addStreamer id list options
    if added.2.1 then
      (added.1.storeList options (list ++ [id.uid]), !(options.isTemp = some true),
       added.2.2)
    else
      (added.1, false, added.2.2)
  else
    let removed := site.removeStreamer id
    if removed.2.1 then
      if site.siteConfig.streamers.contains id.uid then
        (removed.1.storeList options (without list id.uid), !(options.isTemp = some true),
         removed.2.2)
      else
        (removed.1, false, removed.2.2)
    else
      (removed.1, false, removed.2.2)

/-- `Basic.updateList(nm, options)`. -/
def Basic.updateList (site : Site) (nm : String) (options : Options) :
    Site × Bool × List Event :=
  site.updateList { nm := nm, uid := nm } options

/-- What the head of a `for (const x of e)` loop finds in `e`. -/
inductive Iterable where
  | values (items : List Streamer)
  | valuesMethod
  deriving DecidableEq, Repr

/-- The records a `for ... of` loop visits: those of the iterator that the call
`this.streamerList.values()` returns; the method `this.streamerList.values` itself, not
called, is a function and not iterable, and the loop head throws a `TypeError`. -/
def Iterable.items (e : Iterable) : Except String (List Streamer) :=
  match e with
  | .values items => .ok items
  | .valuesMethod => .error "TypeError: this.streamerList.values is not iterable"

/-- The body of the loop of `Site.pause(state)` for the record of `uid`. -/
def Site.pauseStreamer (site : Site) (state : Bool) (uid : String) : Site × List Event :=
  let site1 := site.modify uid (fun s => { s with paused := some state })
  if state then
    let halted := site1.haltCapture uid
    (halted.1, halted.2)
  else
    match site1.get? uid with
    | some streamer =>
      if streamer.state ≠ "Offline" then (site1, site1.refresh uid none) else (site1, [])
    | none => (site1, [])

/-- The loop of `Site.pause(state)` over the records it is given. -/
def Site.pauseLoop (state : Bool) : List Streamer → Site → List Event → Site × List Event
  | [], site, events => (site, events)
  | s :: rest, site, events =>
    let r := site.pauseStreamer state s.uid
    Site.pauseLoop state rest r.1 (events ++ r.2)

/-- `Site.pause(state)`.  The loop head is `for (const streamer of this.streamerList.values)`,
without the call. -/
def Site.pause (site : Site) (state : Bool) : Except String (Site × List Event) :=
  match Iterable.valuesMethod.items with
  | .error e => .error e
  | .ok items =>
    let r := Site.pauseLoop state items site []
    .ok (r.1, r.2 ++ r.1.render true)

/-- The `length` of a JavaScript string: the number of its UTF-16 code units, two for a
character beyond U+FFFF and one for every other. -/
def utf16Length (s : String) : Nat :=
  (s.data.map (fun c => if c.toNat < 65536 then 1 else 2)).sum

/-- `siteName.padEnd(9, " ")`: blanks are appended as long as the string has fewer than 9
UTF-16 code units. -/
def padEnd9 (siteName : String) : String :=
  siteName ++ String.mk (List.replicate (9 - utf16Length siteName) ' ')

/-- The constructor of `Site`, from the name of the site, the `dvr` object and the content
of the configuration file `<plugin>.yml`.  `listName` is the string that
`siteName.toLowerCase()` returns: the Unicode case mapping of the JavaScript runtime is not
part of the embedding, its result is given. -/
def Site.construct (siteName listName : String) (dvr : Dvr) (siteConfig : SiteConfig) :
    Site × List Event :=
  let site : Site :=
    { siteName := siteName
      padName := padEnd9 siteName
      listName := listName
      siteDir := "_" ++ listName
      dvr := dvr
      siteConfig := siteConfig
      tempList := []
      streamerList := []
      streamerListDamaged := false }
  (site,
   (if dvr.tuiEnable then [Event.tuiAddSite siteName] else [])
     ++ [Event.info (Msg.streamersInConfig siteConfig.streamers.length)]
     ++ (if siteConfig.siteUrl = none then [Event.err (Msg.missingSiteUrl siteName)]
         else []))

/-- The record that `Basic.constructor` stores for a name of the configured list: it has
no `filesize`, `stuckcounter`, `isTemp` or `paused` property. -/
def Basic.startupRecord (site : Site) (nm : String) : Streamer :=
  { uid := nm
    nm := nm
    site := site.padName
    state := "Offline"
    filename := ""
    captureProcess := none
    postProcess := 0
    filesize := JsNum.undefined
    stuckcounter := JsNum.undefined
    isTemp := none
    paused := none }

/-- The constructor of `Basic`: the constructor of `Site`, then one record for every name
of `siteConfig.streamers`.  (`urlback` is only used by the status script.) -/
def Basic.construct (siteName listName : String) (dvr : Dvr) (siteConfig : SiteConfig) :
    Site × List Event :=
  let base := Site.construct siteName listName dvr siteConfig
  let site1 := siteConfig.streamers.foldl
    (fun site nm => site.set (Basic.startupRecord site nm)) base.1
  ({ site1 with streamerListDamaged := true }, base.2)

/-! ## One pass of `checkFileSize`, record by record (used in the proofs) -/

/-- The record after the size comparison of the loop body of `checkFileSize`. -/
def Streamer.counted (s : Streamer) (sizeMB : Nat) : Streamer :=
  if s.filesize.strictEq sizeMB then { s with stuckcounter := s.stuckcounter.incr }
  else { s with filesize := JsNum.num sizeMB }

/-- The record after the loop body of `checkFileSize` ran for it. -/
def Streamer.checked (s : Streamer) (sizeMB : Nat) : Streamer :=
  if (s.counted sizeMB).stuckcounter.ge 2 then
    { s.counted sizeMB with stuckcounter := JsNum.num 0 }
  else s.counted sizeMB

/-- The signal that `haltCapture` sends for a record. -/
def Streamer.haltEvents (s : Streamer) : List Event :=
  match s.captureProcess with
  | some captureProcess =>
    if s.postProcess = 0 then [Event.kill s.uid captureProcess.pid "SIGINT"] else []
  | none => []

/-- The effects of the loop body of `checkFileSize` for a record. -/
def Streamer.checkEvents (dvr : Dvr) (s : Streamer) (sizeMB : Nat) : List Event :=
  (if dvr.debugLog then [Event.dbg (Msg.fileSize s.filename sizeMB dvr.maxSize)] else [])
  ++ (if s.filesize.strictEq sizeMB then
        [Event.info (Msg.stuck s.nm s.stuckcounter sizeMB)] else [])
  ++ (if (s.counted sizeMB).stuckcounter.ge 2 then
        Event.info (Msg.terminatingStuck s.nm) :: (s.counted sizeMB).haltEvents
      else if dvr.maxSize ≠ 0 ∧ sizeMB ≥ dvr.maxSize then
        Event.info (Msg.exceededSize s.nm sizeMB dvr.maxSize) :: (s.counted sizeMB).haltEvents
      else [])

/-- Whether the loop body of `checkFileSize` sets `streamerListDamaged` for a record. -/
def Streamer.checkDamages (dvr : Dvr) (s : Streamer) (sizeMB : Nat) : Bool :=
  (s.counted sizeMB).stuckcounter.ge 2 || decide (dvr.maxSize ≠ 0 ∧ sizeMB ≥ dvr.maxSize)

/-- The loop body of `checkFileSize` skips the record (`continue`). -/
def Streamer.skipped (s : Streamer) : Prop :=
  s.captureProcess = none ∨ s.postProcess ≠ 0

instance (s : Streamer) : Decidable s.skipped :=
  inferInstanceAs (Decidable (_ ∨ _))

/-- The path that `checkFileSize` stats for a record. -/
def Streamer.capturePath (dvr : Dvr) (s : Streamer) : String :=
  dvr.captureDirectory ++ "/" ++ s.filename

/-- The record after a pass of `checkFileSize` that did not throw. -/
def Streamer.passed (stat : String → Option Nat) (dvr : Dvr) (s : Streamer) : Streamer :=
  if s.skipped then s
  else match stat (s.capturePath dvr) with
    | some size => s.checked (roundMB size)
    | none => s

/-- The effects of a pass of `checkFileSize` for one record. -/
def Streamer.passEvents (stat : String → Option Nat) (dvr : Dvr) (s : Streamer) :
    List Event :=
  if s.skipped then []
  else match stat (s.capturePath dvr) with
    | some size => s.checkEvents dvr (roundMB size)
    | none => []

/-- Whether a pass of `checkFileSize` sets `streamerListDamaged` for one record. -/
def Streamer.passDamages (stat : String → Option Nat) (dvr : Dvr) (s : Streamer) : Bool :=
  if s.skipped then false
  else match stat (s.capturePath dvr) with
    | some size => s.checkDamages dvr (roundMB size)
    | none => false

/-- Every file that a pass of `checkFileSize` stats exists. -/
def Site.Statable (stat : String → Option Nat) (site : Site) : Prop :=
  ∀ s ∈ site.streamerList, ¬ s.skipped → (stat (s.capturePath site.dvr)).isSome = true

instance (stat : String → Option Nat) (site : Site) : Decidable (site.Statable stat) :=
  inferInstanceAs (Decidable (∀ s ∈ site.streamerList, _))

/-- The plan "call `haltCapture(uid)` once for every uid of the list, in order", with the
state threaded through the calls. -/
def haltEach (site : Site) : List String → Site × List Event
  | [] => (site, [])
  | uid :: rest =>
    let first := site.haltCapture uid
    let others := haltEach first.1 rest
    (others.1, first.2 ++ others.2)

/-! ## Example states and scenarios -/

/-- A `dvr` configuration for the examples: no size limit, `minSize` 5 MB. -/
def demoDvr : Dvr :=
  { maxSize := 0
    minSize := 5
    captureDirectory := "/capturing"
    autoConvertType := "mp4"
    includeSiteInFile := false
    proxyEnable := false
    proxyServer := ""
    debugLog := false
    debugRecorder := false
    tuiEnable := false
    tryingToExit := false
    postProcessQ := [] }

/-- A site with no streamers, for the examples. -/
def demoSite : Site :=
  { siteName := "TWITCH"
    padName := "TWITCH   "
    listName := "twitch"
    siteDir := "_twitch"
    dvr := demoDvr
    siteConfig :=
      { streamers := []
        batchSize := none
        siteUrl := some "https://www.twitch.tv/"
        recorder := "scripts/record_streamlink.sh"
        username := ""
        password := "" }
    tempList := []
    streamerList := []
    streamerListDamaged := false }

/-- A record with a live capture whose file had 50 MB at the last pass. -/
def demoCapturing (uid : String) (stuckcounter : Nat) : Streamer :=
  { uid := uid
    nm := uid
    site := "TWITCH   "
    state := "Streaming"
    filename := uid ++ ".ts"
    captureProcess := some ⟨some 4242⟩
    postProcess := 0
    filesize := JsNum.num 50
    stuckcounter := JsNum.num stuckcounter
    isTemp := some false
    paused := some false }

/-- Options of an interactive add. -/
def demoAdd : Options :=
  { add := some true, pause := 0, isTemp := some false, init := none }

/-- The scenario of a fresh streamer whose capture is started: `addStreamer`, then
`Basic.setupCapture` and `startCapture` for the added record, which the registry holds. -/
def freshCapture (site : Site) (id : Id) (list : List String) (options : Options)
    (url dateTime : String) (calcPath : String → String) (spawned : CaptureProcess) : Site :=
  let site1 := (site.addStreamer id list options).1
  match site1.get? id.uid with
  | none => site1
  | some streamer =>
    let capInfo := (Basic.setupCapture site1 streamer url dateTime).1
    (site1.startCapture calcPath capInfo Held.tracked spawned).1

/-- The record that `addStreamer` inserts, after its capture was stored. -/
def freshRecord (site : Site) (id : Id) (options : Options) (dateTime : String)
    (spawned : CaptureProcess) : Streamer :=
  { uid := id.uid
    nm := id.nm
    site := site.padName
    state := "Offline"
    filename := site.getFileName id.nm dateTime ++ ".ts"
    captureProcess := some spawned
    postProcess := 0
    filesize := JsNum.num 0
    stuckcounter := JsNum.num 0
    isTemp := options.isTemp
    paused := some false }

/-- The scenario state: "alice" was added to an empty site and her capture was started
(process 4242). -/
def scenarioStart : Site :=
  freshCapture demoSite ⟨"alice", "alice"⟩ [] demoAdd "http://cdn/alice.m3u8" "20200101"
    (fun p => p) ⟨some 4242⟩

/-- A file system in which every capture file has 50 MB. -/
def stat50 : String → Option Nat :=
  fun _ => some 52428800

/-- A site whose streamer "alice" is recorded to `alice_20200101.ts`; her state is
"Streaming", as `Basic.checkStreamerState` sets it before it starts the capture. -/
def demoRecording : Site :=
  { demoSite with
    streamerList := [{ demoCapturing "alice" 0 with filename := "alice_20200101.ts" }] }

/-- The record that `addStreamer` inserts. -/
def Site.newRecord (site : Site) (id : Id) (options : Options) : Streamer :=
  { uid := id.uid
    nm := id.nm
    site := site.padName
    state := "Offline"
    filename := ""
    captureProcess := none
    postProcess := 0
    filesize := JsNum.num 0
    stuckcounter := JsNum.num 0
    isTemp := options.isTemp
    paused := some false }

/-- Options of a temporary add. -/
def demoAddTemp : Options :=
  { add := some true, pause := 0, isTemp := some true, init := none }

/-- A configuration file that lists "alice". -/
def demoConfig : SiteConfig :=
  { streamers := ["alice"]
    batchSize := none
    siteUrl := some "https://www.twitch.tv/"
    recorder := "scripts/record_streamlink.sh"
    username := ""
    password := "" }

/-- The site that `Basic.constructor` builds from `demoConfig`: "alice" is tracked and in
the persisted list, the temporary list is empty. -/
def demoStartup : Site :=
  (Basic.construct "TWITCH" "twitch" demoDvr demoConfig).1

/-- Options of the removal of a temporary streamer. -/
def demoRemoveTemp : Options :=
  { add := none, pause := 0, isTemp := some true, init := none }

/-- Options of the removal of a persisted streamer. -/
def demoRemove : Options :=
  { add := none, pause := 0, isTemp := none, init := none }

/-- The start-up site after "bob" was added temporarily: "bob" is tracked and in
`tempList`. -/
def demoWithTemp : Site :=
  (demoStartup.updateList ⟨"bob", "bob"⟩ demoAddTemp).1

/-- The site after the temporary "bob" was removed again: "bob" is not tracked, but
`tempList` still names him. -/
def demoStale : Site :=
  (demoWithTemp.updateList ⟨"bob", "bob"⟩ demoRemoveTemp).1

/-- A configuration file that lists "alice" twice. -/
def demoTwiceConfig : SiteConfig :=
  { demoConfig with streamers := ["alice", "alice"] }

/-- The site that `Basic.constructor` builds from `demoTwiceConfig`, after "alice" was
removed with `isTemp` set: the registry has no record of "alice", and the persisted list
still names her twice. -/
def demoListedTwice : Site :=
  ((Basic.construct "TWITCH" "twitch" demoDvr demoTwiceConfig).1.updateList
    ⟨"alice", "alice"⟩ demoRemoveTemp).1

/-- Options of a pause request. -/
def demoPause : Options :=
  { add := none, pause := 1, isTemp := none, init := none }

/-- Options of an unpause request. -/
def demoUnpause : Options :=
  { add := none, pause := 2, isTemp := none, init := none }

/-- The start of a capture for the tracked streamer `uid`: `Basic.setupCapture` and
`startCapture` for its record, as `Basic.checkStreamerState` calls them, with no removal of
the uid in between. -/
def captureOf (site : Site) (uid : String) (url dateTime : String)
    (calcPath : String → String) (spawned : CaptureProcess) : Site :=
  match site.get? uid with
  | none => site
  | some streamer =>
    (site.startCapture calcPath (Basic.setupCapture site streamer url dateTime).1
      Held.tracked spawned).1

/-- The state after `n` successive calls of `checkFileSize`, with the effects of all of
them in order. -/
def Site.checkFileSizeRepeat (stat : String → Option Nat) : Nat → Site → Site × List Event
  | 0, site => (site, [])
  | n + 1, site =>
    let r := site.checkFileSize stat
    let rest := Site.checkFileSizeRepeat stat n r.site
    (rest.1, r.events ++ rest.2)

/-- The start-up site of `demoConfig` after the capture of "alice" was started (process
4242). -/
def startupScenario : Site :=
  captureOf demoStartup "alice" "http://cdn/alice.m3u8" "20200101" (fun p => p) ⟨some 4242⟩

/-- The site of `demoRecording` after "alice" was removed and added again and a capture
was started for the new record (process 4343): the registry holds the new record, not the
one whose capture `demoRecording` shows. -/
def demoReAdded : Site :=
  captureOf
    ((demoRecording.updateList ⟨"alice", "alice"⟩ demoRemove).1.updateList
      ⟨"alice", "alice"⟩ demoAdd).1
    "alice" "http://cdn/alice.m3u8" "20200102" (fun p => p) ⟨some 4343⟩

/-- A file system in which every capture file has 51 MB. -/
def stat51 : String → Option Nat :=
  fun _ => some 53477376

/-- The results of successive calls of `checkFileSize`, one for every file system state of
the list, each on the state that the one before left. -/
def Site.checkFileSizePasses : List (String → Option Nat) → Site → List CheckResult
  | [], _ => []
  | stat :: rest, site =>
    (site.checkFileSize stat) :: Site.checkFileSizePasses rest (site.checkFileSize stat).site

/-- The value of the local `batchSize` of `Basic.serialize` when the loop starts. -/
def Basic.batchSizeFor {α : Type} (cfgBatchSize : Option Int) (nms : List α) : Int :=
  match cfgBatchSize with
  | none => 5
  | some b => if b = 0 then (nms.length : Int) else b

/-! ## The batch scheduler: claims C1 to C3 -/

theorem serializeFor_eq {α : Type} (nms : List α) (L : Nat) :
    ∀ (fuel i count : Nat) (parBatch : List α),
      i ≤ min L nms.length → min L nms.length - i < fuel →
      Basic.serializeFor nms (L : Int) fuel i count parBatch
        = some (count + (min L nms.length - i),
                parBatch ++ (nms.drop i).take (min L nms.length - i)) := by
  intro fuel
  induction fuel with
  | zero => intro i count parBatch _ h; omega
  | succ fuel ih =>
    intro i count parBatch hi hf
    unfold Basic.serializeFor
    by_cases hlt : i < min L nms.length
    · have hc : ((i : Int) < (L : Int) ∧ i < nms.length) := by
        constructor
        · exact_mod_cast (lt_of_lt_of_le hlt (min_le_left _ _))
        · exact lt_of_lt_of_le hlt (min_le_right _ _)
      rw [dif_pos hc, ih (i + 1) (count + 1) _ (by omega) (by omega)]
      have hsplit : min L nms.length - i = (min L nms.length - (i + 1)) + 1 := by omega
      rw [hsplit, List.drop_eq_getElem_cons hc.2, List.take_succ_cons]
      simp [Nat.add_assoc, Nat.add_comm]
    · have hc : ¬ ((i : Int) < (L : Int) ∧ i < nms.length) := by
        rintro ⟨h1, h2⟩
        have h1' : i < L := by exact_mod_cast h1
        exact hlt (lt_min h1' h2)
      rw [dif_neg hc]
      have : min L nms.length - i = 0 := by omega
      simp [this]

theorem batchesFrom_step {α : Type} (nms : List α) (k c : Nat) (hk : 1 ≤ k)
    (hc : c < nms.length) :
    batchesFrom nms k c
      = (nms.drop c).take (min (c + k) nms.length - c)
          :: batchesFrom nms k (min (c + k) nms.length) := by
  unfold batchesFrom
  by_cases hle : c + k ≤ nms.length
  · have hmin : min (c + k) nms.length = c + k := min_eq_left hle
    have hnum : (nms.length - c + k - 1) / k = (nms.length - (c + k) + k - 1) / k + 1 := by
      have : nms.length - c + k - 1 = (nms.length - (c + k) + k - 1) + k := by omega
      rw [this, Nat.add_div_right _ (by omega)]
    rw [hmin, hnum, List.range_succ_eq_map, List.map_cons, List.map_map]
    congr 1
    · simp
    · apply List.map_congr_left
      intro i _
      simp only [Function.comp, Nat.succ_eq_add_one]
      have : c + (i + 1) * k = c + k + i * k := by ring
      rw [this]
  · have hmin : min (c + k) nms.length = nms.length := min_eq_right (by omega)
    have hnum : (nms.length - c + k - 1) / k = 1 := by
      apply Nat.div_eq_of_lt_le <;> omega
    have hnum0 : (nms.length - nms.length + k - 1) / k = 0 := by
      apply Nat.div_eq_of_lt; omega
    have h1 : List.range 1 = [0] := rfl
    rw [hmin, hnum, hnum0, h1]
    simp only [List.map_cons, List.map_nil, List.range_zero, Nat.zero_mul, Nat.add_zero]
    congr 1
    rw [List.take_of_length_le (by simp; omega), List.take_of_length_le (by simp)]

theorem serializeWhile_eq {α : Type} (nms : List α) (k : Nat) (hk : 1 ≤ k) :
    ∀ (fuel count : Nat) (serRuns : List (List α)),
      count ≤ nms.length → nms.length - count + 2 ≤ fuel →
      Basic.serializeWhile nms (k : Int) fuel count serRuns
        = some (serRuns ++ batchesFrom nms k count) := by
  intro fuel
  induction fuel with
  | zero => intro count serRuns _ h; omega
  | succ fuel ih =>
    intro count serRuns hc hf
    unfold Basic.serializeWhile
    by_cases hlt : count < nms.length
    · rw [if_pos hlt]
      have hcast : ((count : Int) + (k : Int)) = ((count + k : Nat) : Int) := by push_cast; rfl
      rw [hcast, serializeFor_eq nms (count + k) fuel count count [] (by omega) (by omega)]
      simp only [List.nil_append]
      have hcnt : count + (min (count + k) nms.length - count) = min (count + k) nms.length := by omega
      rw [hcnt, ih _ _ (min_le_right _ _) (by omega), batchesFrom_step nms k count hk hlt]
      simp
    · rw [if_neg hlt]
      have : count = nms.length := by omega
      subst this
      have hnum0 : (k - 1) / k = 0 := by
        apply Nat.div_eq_of_lt; omega
      simp [batchesFrom, hnum0]

theorem batchesFrom_flatten {α : Type} (nms : List α) (k : Nat) (hk : 1 ≤ k) :
    ∀ (j c : Nat), nms.length - c < j → c ≤ nms.length →
      (batchesFrom nms k c).flatten = nms.drop c := by
  intro j
  induction j with
  | zero => intro c h; omega
  | succ j ih =>
    intro c hj hc
    by_cases hlt : c < nms.length
    · rw [batchesFrom_step nms k c hk hlt, List.flatten_cons,
        ih _ (by omega) (min_le_right _ _)]
      obtain ⟨m, hm⟩ : ∃ m, min (c + k) nms.length = c + m := ⟨_, (Nat.add_sub_cancel' (by omega)).symm⟩
      rw [hm, Nat.add_sub_cancel_left, ← List.drop_drop, List.take_append_drop]
    · have : c = nms.length := by omega
      subst this
      have hnum0 : (k - 1) / k = 0 := by
        apply Nat.div_eq_of_lt; omega
      simp [batchesFrom, hnum0]

theorem batchesFrom_length {α : Type} (nms : List α) (k c : Nat) :
    (batchesFrom nms k c).length = (nms.length - c + k - 1) / k := by
  simp [batchesFrom]

theorem batchesFrom_getElem_length {α : Type} (nms : List α) (k : Nat) (i : Nat)
    (h : i < (batchesFrom nms k 0).length) :
    ((batchesFrom nms k 0)[i]).length = min k (nms.length - i * k) := by
  simp [batchesFrom]

theorem ceil_div_eq (n k : Nat) (hk : 1 ≤ k) :
    ⌈(n : ℚ) / ((k : Int) : ℚ)⌉ = (((n + k - 1) / k : Nat) : Int) := by
  have hkq : (0 : ℚ) < ((k : Int) : ℚ) := by exact_mod_cast hk
  have hdm := Nat.div_add_mod (n + k - 1) k
  have hmod := Nat.mod_lt (n + k - 1) (show k > 0 by omega)
  generalize (n + k - 1) / k = q at hdm
  generalize (n + k - 1) % k = r at hdm hmod
  apply le_antisymm
  · rw [Int.ceil_le, div_le_iff₀ hkq]
    have : n ≤ q * k := by
      have h1 : k * q = q * k := Nat.mul_comm _ _
      omega
    exact_mod_cast this
  · rcases q with _ | q'
    · have h0 : (0 : ℚ) ≤ (n : ℚ) / ((k : Int) : ℚ) := div_nonneg (by positivity) hkq.le
      have := Int.ceil_nonneg h0
      simpa using this
    · have : ((q' : Nat) : Int) < ⌈(n : ℚ) / ((k : Int) : ℚ)⌉ := by
        rw [Int.lt_ceil, lt_div_iff₀ hkq]
        have h2 : q' * k < n := by
          have h1 : k * (q' + 1) = q' * k + k := by ring
          omega
        exact_mod_cast h2
      have h3 : ((q' + 1 : Nat) : Int) = (q' : Int) + 1 := by push_cast; rfl
      rw [h3]
      exact Int.add_one_le_iff.mpr this

theorem serialize_eq_batchesFrom {α : Type} (nms : List α) (k : Nat) (hk : 1 ≤ k)
    (fuel : Nat) (hf : nms.length + 2 ≤ fuel) :
    Basic.serializeWhile nms (k : Int) fuel 0 [] = some (batchesFrom nms k 0) := by
  rw [serializeWhile_eq nms k hk fuel 0 [] (Nat.zero_le _) (by omega)]
  simp

/-- C1: for a configured batch size `k ≥ 1`, `Basic.serialize` returns (with enough fuel)
`ceil(n / k)` batches, every batch but the last has length `k`, and the last batch has
between `1` and `k` elements. -/
theorem serialize_batch_count_and_sizes {α : Type} (nms : List α) (k : Int) (hk : 1 ≤ k) :
    ∃ runs : List (List α),
      (∀ fuel, nms.length + 2 ≤ fuel → Basic.serialize (some k) nms fuel = some runs) ∧
      (runs.length : Int) = ⌈(nms.length : ℚ) / (k : ℚ)⌉ ∧
      (∀ (i : Nat) (h : i < runs.length), i + 1 < runs.length →
          ((runs[i]).length : Int) = k) ∧
      (∀ b, runs.getLast? = some b → 1 ≤ (b.length : Int) ∧ (b.length : Int) ≤ k) := by
  obtain ⟨k', rfl⟩ := Int.eq_ofNat_of_zero_le (le_trans (by decide) hk)
  have hk' : 1 ≤ k' := by exact_mod_cast hk
  have hlen := batchesFrom_length nms k' 0
  simp only [Nat.sub_zero] at hlen
  have hdm := Nat.div_add_mod (nms.length + k' - 1) k'
  have hmod := Nat.mod_lt (nms.length + k' - 1) (show k' > 0 by omega)
  refine ⟨batchesFrom nms k' 0, ?_, ?_, ?_, ?_⟩
  · intro fuel hf
    have hne : ¬ ((k' : Int) = 0) := by omega
    simp only [Basic.serialize, if_neg hne]
    exact serialize_eq_batchesFrom nms k' hk' fuel hf
  · rw [ceil_div_eq _ _ hk', hlen]
  · intro i h hi
    rw [batchesFrom_getElem_length]
    rw [hlen] at hi
    generalize (nms.length + k' - 1) / k' = q at hdm hi
    generalize (nms.length + k' - 1) % k' = r at hdm hmod
    have h1 : (i + 2) * k' ≤ k' * q := by
      rw [Nat.mul_comm]; exact Nat.mul_le_mul_left _ hi
    have h2 : (i + 2) * k' = i * k' + k' + k' := by ring
    have : k' ≤ nms.length - i * k' := by omega
    exact_mod_cast min_eq_left this
  · intro b hb
    rw [List.getLast?_eq_getElem?] at hb
    obtain ⟨h, hb'⟩ := List.getElem?_eq_some_iff.mp hb
    rw [← hb', batchesFrom_getElem_length]
    have hpos : 0 < (batchesFrom nms k' 0).length := by omega
    rw [hlen] at hpos h
    rw [hlen]
    generalize (nms.length + k' - 1) / k' = q at hdm hpos
    generalize (nms.length + k' - 1) % k' = r at hdm hmod
    have h1 : k' * q = (q - 1) * k' + k' := by
      obtain ⟨q', hq'⟩ : ∃ q', q = q' + 1 := ⟨q - 1, by omega⟩
      rw [hq']; simp; ring
    have h2 : 1 ≤ nms.length - (q - 1) * k' := by omega
    constructor
    · have : 1 ≤ min k' (nms.length - (q - 1) * k') := le_min hk' h2
      exact_mod_cast this
    · exact_mod_cast min_le_left _ _

theorem serialize_batch_count_and_sizes_witness :
    (1 : Int) ≤ 2 ∧
    ∃ runs : List (List Nat),
      (∀ fuel, [10, 20, 30, 40, 50].length + 2 ≤ fuel →
          Basic.serialize (some 2) [10, 20, 30, 40, 50] fuel = some runs) ∧
      (runs.length : Int) = ⌈(([10, 20, 30, 40, 50] : List Nat).length : ℚ) / ((2 : Int) : ℚ)⌉ ∧
      (∀ (i : Nat) (h : i < runs.length), i + 1 < runs.length →
          ((runs[i]).length : Int) = 2) ∧
      (∀ b, runs.getLast? = some b → 1 ≤ (b.length : Int) ∧ (b.length : Int) ≤ 2) :=
  ⟨by decide, serialize_batch_count_and_sizes [10, 20, 30, 40, 50] 2 (by decide)⟩

/-- C2, as stated, fails on the empty list: with `batchSize` 0 and no streamers
`Basic.serialize` returns no batch at all, for every amount of fuel. -/
theorem serialize_zero_empty_no_batch :
    Basic.serialize (some 0) ([] : List String) 2 = some [] ∧
    ¬ ∃ (fuel : Nat) (batch : List String),
        Basic.serialize (some 0) ([] : List String) fuel = some [batch] := by
  refine ⟨by decide, ?_⟩
  rintro ⟨fuel, batch, h⟩
  cases fuel with
  | zero => simp [Basic.serialize, Basic.serializeWhile] at h
  | succ fuel => simp [Basic.serialize, Basic.serializeWhile] at h

theorem serialize_zero_nonempty {α : Type} (nms : List α) (fuel : Nat)
    (hf : nms.length + 2 ≤ fuel) (hne : nms ≠ []) :
    Basic.serialize (some 0) nms fuel = some [nms] := by
  have hpos : 1 ≤ nms.length := List.length_pos.mpr hne
  simp only [Basic.serialize, if_true]
  rw [serialize_eq_batchesFrom nms nms.length hpos _ hf, batchesFrom]
  have hnum : (nms.length - 0 + nms.length - 1) / nms.length = 1 := by
    apply Nat.div_eq_of_lt_le <;> omega
  have h1 : List.range 1 = [0] := rfl
  rw [hnum, h1]
  simp

/-- C2, amended: with `batchSize` 0, `Basic.serialize` returns the single batch `nms` when
`nms` is not empty, and no batch when `nms` is empty. -/
theorem serialize_zero_single_batch {α : Type} (nms : List α) (fuel : Nat)
    (hf : nms.length + 2 ≤ fuel) :
    (nms ≠ [] → Basic.serialize (some 0) nms fuel = some [nms]) ∧
    (nms = [] → Basic.serialize (some 0) nms fuel = some []) := by
  obtain ⟨fuel1, rfl⟩ : ∃ f, fuel = f + 1 := ⟨fuel - 1, by omega⟩
  constructor
  · exact serialize_zero_nonempty nms _ hf
  · intro he
    subst he
    simp [Basic.serialize, Basic.serializeWhile]

theorem serialize_zero_single_batch_witness :
    ([7, 8, 9] : List Nat).length + 2 ≤ 5 ∧
    (([7, 8, 9] : List Nat) ≠ [] → Basic.serialize (some 0) [7, 8, 9] 5 = some [[7, 8, 9]]) ∧
    (([7, 8, 9] : List Nat) = [] → Basic.serialize (some 0) [7, 8, 9] 5 = some []) :=
  ⟨by decide, serialize_zero_single_batch [7, 8, 9] 5 (by decide)⟩

/-- C3: for a configured batch size `≥ 0`, or none, the batches that `Basic.serialize`
returns, concatenated in order, are `nms`. -/
theorem serialize_flatten {α : Type} (nms : List α) (cfgBatchSize : Option Int)
    (hcfg : ∀ b, cfgBatchSize = some b → 0 ≤ b) :
    ∃ runs : List (List α),
      (∀ fuel, nms.length + 2 ≤ fuel → Basic.serialize cfgBatchSize nms fuel = some runs) ∧
      runs.flatten = nms := by
  have key : ∀ k : Nat, 1 ≤ k →
      (batchesFrom nms k 0).flatten = nms := by
    intro k hk
    rw [batchesFrom_flatten nms k hk (nms.length + 1) 0 (by omega) (Nat.zero_le _)]
    rfl
  cases cfgBatchSize with
  | none =>
    refine ⟨batchesFrom nms 5 0, ?_, key 5 (by decide)⟩
    intro fuel hf
    simp only [Basic.serialize]
    exact serialize_eq_batchesFrom nms 5 (by decide) fuel hf
  | some b =>
    have hb := hcfg b rfl
    by_cases hb0 : b = 0
    · subst hb0
      by_cases hne : nms = []
      · refine ⟨[], ?_, by simp [hne]⟩
        intro fuel hf
        obtain ⟨fuel1, rfl⟩ : ∃ f, fuel = f + 1 := ⟨fuel - 1, by omega⟩
        subst hne
        simp [Basic.serialize, Basic.serializeWhile]
      · refine ⟨[nms], ?_, by simp⟩
        intro fuel hf
        exact serialize_zero_nonempty nms fuel hf hne
    · obtain ⟨k, rfl⟩ := Int.eq_ofNat_of_zero_le hb
      have hk : 1 ≤ k := by omega
      refine ⟨batchesFrom nms k 0, ?_, key k hk⟩
      intro fuel hf
      simp only [Basic.serialize, if_neg hb0]
      exact serialize_eq_batchesFrom nms k hk fuel hf

theorem serialize_flatten_witness :
    (∀ b : Int, (none : Option Int) = some b → 0 ≤ b) ∧
    ∃ runs : List (List String),
      (∀ fuel, ["a", "b", "c", "d", "e", "f"].length + 2 ≤ fuel →
          Basic.serialize none ["a", "b", "c", "d", "e", "f"] fuel = some runs) ∧
      runs.flatten = ["a", "b", "c", "d", "e", "f"] :=
  ⟨by simp, serialize_flatten ["a", "b", "c", "d", "e", "f"] none (by simp)⟩

/-! ## The capture monitor `checkFileSize`: claims C4 to C6 -/

theorem Streamer.counted_uid (s : Streamer) (sizeMB : Nat) : (s.counted sizeMB).uid = s.uid := by
  unfold Streamer.counted; split <;> rfl

theorem Streamer.checked_uid (s : Streamer) (sizeMB : Nat) : (s.checked sizeMB).uid = s.uid := by
  unfold Streamer.checked; split <;> simp [Streamer.counted_uid]

theorem Streamer.passed_uid (stat : String → Option Nat) (dvr : Dvr) (s : Streamer) :
    (s.passed stat dvr).uid = s.uid := by
  unfold Streamer.passed
  split
  · rfl
  · split
    · exact Streamer.checked_uid _ _
    · rfl

theorem find_set_of_nodup (L : List Streamer) :
    ∀ (i : Nat) (s s1 : Streamer), (L.map (fun t => t.uid)).Nodup → L[i]? = some s →
      s1.uid = s.uid →
      (L.set i s1).find? (fun t => t.uid == s.uid) = some s1 := by
  induction L with
  | nil => intro i s s1 _ h; simp at h
  | cons hd tl ih =>
    intro i s s1 hnd hi hu
    cases i with
    | zero =>
      simp [List.set, List.find?, hu]
    | succ i =>
      simp only [List.getElem?_cons_succ] at hi
      have hmem : s ∈ tl := List.getElem?_mem hi
      have hnd2 := List.nodup_cons.mp hnd
      have hne : hd.uid ≠ s.uid := by
        intro heq
        apply hnd2.1
        show hd.uid ∈ _
        rw [heq]
        exact List.mem_map_of_mem (fun t => t.uid) hmem
      simp only [List.set, List.find?]
      have : (hd.uid == s.uid) = false := by simpa using hne
      rw [this]
      exact ih i s s1 hnd2.2 hi hu

theorem haltCapture_set (site : Site) (i : Nat) (s s1 : Streamer)
    (hwf : site.WellFormed) (hi : site.streamerList[i]? = some s) (hu : s1.uid = s.uid) :
    Site.haltCapture { site with streamerList := site.streamerList.set i s1 } s1.uid
      = ({ site with streamerList := site.streamerList.set i s1 }, s1.haltEvents) := by
  unfold Site.haltCapture Site.get?
  simp only
  rw [hu, find_set_of_nodup site.streamerList i s s1 hwf hi hu]
  unfold Streamer.haltEvents
  cases hcp : s1.captureProcess with
  | none => simp [hcp]
  | some cp =>
    by_cases hpp : s1.postProcess = 0 <;> simp [hcp, hpp]

theorem checkFileSizeIter_eq (stat : String → Option Nat) (site : Site) (i : Nat)
    (s : Streamer) (hwf : site.WellFormed) (hi : site.streamerList[i]? = some s)
    (hst : ¬ s.skipped → (stat (s.capturePath site.dvr)).isSome = true) :
    site.checkFileSizeIter stat i
      = ⟨{ site with
            streamerList := site.streamerList.set i (s.passed stat site.dvr)
            streamerListDamaged :=
              site.streamerListDamaged || s.passDamages stat site.dvr },
         s.passEvents stat site.dvr, false⟩ := by
  have hset : site.streamerList.set i s = site.streamerList := by
    apply List.ext_getElem?
    intro j
    by_cases hj : i = j
    · subst hj
      rw [hi]
      have hlt : i < site.streamerList.length := by
        by_contra hge
        rw [List.getElem?_eq_none (by omega)] at hi
        exact Option.noConfusion hi
      simp [List.getElem?_set, hlt]
    · simp [List.getElem?_set, hj]
  unfold Site.checkFileSizeIter Streamer.passed Streamer.passEvents Streamer.passDamages
  rw [hi]
  simp only
  by_cases hsk : s.skipped
  · have hsk2 : s.captureProcess = none ∨ s.postProcess ≠ 0 := hsk
    rw [if_pos hsk2, if_pos hsk, if_pos hsk, if_pos hsk, hset]
    simp
  · have hsk2 : ¬ (s.captureProcess = none ∨ s.postProcess ≠ 0) := hsk
    rw [if_neg hsk2, if_neg hsk, if_neg hsk, if_neg hsk]
    have hsome := hst hsk
    unfold Streamer.capturePath at hsome ⊢
    cases hstat : stat (site.dvr.captureDirectory ++ "/" ++ s.filename) with
    | none => rw [hstat] at hsome; simp at hsome
    | some size =>
      simp only
      have hcu : (s.counted (roundMB size)).uid = s.uid := Streamer.counted_uid _ _
      have hcounted : (if s.filesize.strictEq (roundMB size) = true then
            { s with stuckcounter := s.stuckcounter.incr }
          else { s with filesize := JsNum.num (roundMB size) }) = s.counted (roundMB size) := rfl
      rw [hcounted]
      have hh := haltCapture_set site i s (s.counted (roundMB size)) hwf hi hcu
      unfold Streamer.checked Streamer.checkEvents Streamer.checkDamages Site.dbgMsg
      by_cases hge : (s.counted (roundMB size)).stuckcounter.ge 2 = true
      · rw [if_pos hge, if_pos hge, if_pos hge, hh]
        simp [hge]
      · rw [if_neg hge, if_neg hge, if_neg hge]
        by_cases hmax : site.dvr.maxSize ≠ 0 ∧ roundMB size ≥ site.dvr.maxSize
        · rw [if_pos hmax, if_pos hmax, hh]
          simp [hge, hmax]
        · rw [if_neg hmax, if_neg hmax]
          simp [hge, hmax]

theorem checkFileSizeLoop_eq (stat : String → Option Nat) :
    ∀ (n i : Nat) (site : Site) (events : List Event),
      site.WellFormed → i + n = site.streamerList.length →
      (∀ s ∈ site.streamerList.drop i, ¬ s.skipped →
          (stat (s.capturePath site.dvr)).isSome = true) →
      Site.checkFileSizeLoop stat n i site events
        = ⟨{ site with
              streamerList :=
                site.streamerList.take i
                  ++ (site.streamerList.drop i).map (fun s => s.passed stat site.dvr)
              streamerListDamaged :=
                site.streamerListDamaged
                  || (site.streamerList.drop i).any (fun s => s.passDamages stat site.dvr) },
           events ++ (site.streamerList.drop i).flatMap (fun s => s.passEvents stat site.dvr),
           false⟩ := by
  intro n
  induction n with
  | zero =>
    intro i site events _ hlen _
    have hi : site.streamerList.length ≤ i := by omega
    simp [Site.checkFileSizeLoop, List.drop_eq_nil_of_le hi, List.take_of_length_le hi]
  | succ n ih =>
    intro i site events hwf hlen hst
    have hlt : i < site.streamerList.length := by omega
    have hi : site.streamerList[i]? = some site.streamerList[i] :=
      List.getElem?_eq_getElem hlt
    have hdrop : site.streamerList.drop i
        = site.streamerList[i] :: site.streamerList.drop (i + 1) :=
      List.drop_eq_getElem_cons hlt
    have hiter := checkFileSizeIter_eq stat site i site.streamerList[i] hwf hi
      (hst _ (by rw [hdrop]; exact List.mem_cons_self _ _))
    unfold Site.checkFileSizeLoop
    simp only [hiter, Bool.false_eq_true, if_false]
    have hwf2 : Site.WellFormed
        { site with
          streamerList :=
            site.streamerList.set i ((site.streamerList[i]).passed stat site.dvr)
          streamerListDamaged :=
            site.streamerListDamaged
              || (site.streamerList[i]).passDamages stat site.dvr } := by
      unfold Site.WellFormed
      simp only [List.map_set, Streamer.passed_uid]
      have : (List.map (fun s => s.uid) site.streamerList).set i (site.streamerList[i]).uid
          = List.map (fun s => s.uid) site.streamerList := by
        apply List.ext_getElem?
        intro j
        by_cases hj : i = j
        · subst hj
          simp [List.getElem?_set, hlt]
        · simp [List.getElem?_set, hj]
      rw [this]
      exact hwf
    rw [ih (i + 1) _ _ hwf2 (by simp; omega)
      (by
        intro s hs
        simp only [List.drop_set_of_lt _ _ (Nat.lt_succ_self i)] at hs
        exact hst s (by rw [hdrop]; exact List.mem_cons_of_mem _ hs))]
    have htake : (site.streamerList.set i ((site.streamerList[i]).passed stat site.dvr)).take i
        = site.streamerList.take i := by
      rw [List.set_take, List.set_eq_of_length_le (by simp)]
    simp only [List.drop_set_of_lt _ _ (Nat.lt_succ_self i), List.take_succ,
      htake, hdrop, List.map_cons, List.any_cons, List.flatMap_cons]
    simp [List.getElem?_set, hlt, Bool.or_assoc]

theorem checkFileSize_eq (stat : String → Option Nat) (site : Site)
    (hwf : site.WellFormed) (hst : site.Statable stat) :
    site.checkFileSize stat
      = ⟨{ site with
            streamerList := site.streamerList.map (fun s => s.passed stat site.dvr)
            streamerListDamaged :=
              site.streamerListDamaged
                || site.streamerList.any (fun s => s.passDamages stat site.dvr) },
         site.streamerList.flatMap (fun s => s.passEvents stat site.dvr),
         false⟩ := by
  unfold Site.checkFileSize
  rw [checkFileSizeLoop_eq stat _ 0 site [] hwf (by simp) (by simpa using hst)]
  simp

theorem find_map_of_nodup (f : Streamer → Streamer) (hf : ∀ t, (f t).uid = t.uid) :
    ∀ (L : List Streamer) (s : Streamer), (L.map (fun t => t.uid)).Nodup → s ∈ L →
      (L.map f).find? (fun t => t.uid == s.uid) = some (f s) := by
  intro L
  induction L with
  | nil => intro s _ h; simp at h
  | cons hd tl ih =>
    intro s hnd hmem
    have hnd2 := List.nodup_cons.mp hnd
    rcases List.mem_cons.mp hmem with heq | htl
    · subst heq
      simp [List.find?, hf]
    · have hne : hd.uid ≠ s.uid := by
        intro heq
        apply hnd2.1
        show hd.uid ∈ _
        rw [heq]
        exact List.mem_map_of_mem (fun t => t.uid) htl
      have hb : ((f hd).uid == s.uid) = false := by simpa [hf] using hne
      simp only [List.map_cons, List.find?, hb]
      exact ih s hnd2.2 htl

theorem killsOf_append (u : String) (a b : List Event) :
    killsOf u (a ++ b) = killsOf u a ++ killsOf u b := by
  simp [killsOf]

theorem killsOf_haltEvents (u : String) (s : Streamer) :
    killsOf u s.haltEvents = if s.uid = u then s.haltEvents else [] := by
  unfold Streamer.haltEvents
  cases s.captureProcess with
  | none => simp [killsOf]
  | some cp =>
    by_cases hpp : s.postProcess = 0 <;> by_cases hu : s.uid = u <;> simp [killsOf, hpp, hu]

theorem killsOf_checkEvents (u : String) (dvr : Dvr) (s : Streamer) (sizeMB : Nat) :
    killsOf u (s.checkEvents dvr sizeMB)
      = if s.uid = u ∧
            ((s.counted sizeMB).stuckcounter.ge 2 = true
              ∨ (dvr.maxSize ≠ 0 ∧ sizeMB ≥ dvr.maxSize)) then
          (s.counted sizeMB).haltEvents
        else [] := by
  unfold Streamer.checkEvents
  rw [killsOf_append, killsOf_append]
  have h1 : killsOf u (if dvr.debugLog = true then
      [Event.dbg (Msg.fileSize s.filename sizeMB dvr.maxSize)] else []) = [] := by
    split <;> simp [killsOf]
  have h2 : killsOf u (if s.filesize.strictEq sizeMB = true then
      [Event.info (Msg.stuck s.nm s.stuckcounter sizeMB)] else []) = [] := by
    split <;> simp [killsOf]
  have hcons : ∀ (m : Msg) (l : List Event), killsOf u (Event.info m :: l) = killsOf u l := by
    intro m l; simp [killsOf]
  rw [h1, h2]
  by_cases hge : (s.counted sizeMB).stuckcounter.ge 2 = true
  · simp only [if_pos hge, hcons, killsOf_haltEvents, Streamer.counted_uid, List.nil_append]
    by_cases hu : s.uid = u <;> simp [hu, hge]
  · by_cases hmax : dvr.maxSize ≠ 0 ∧ sizeMB ≥ dvr.maxSize
    · simp only [if_neg hge, if_pos hmax, hcons, killsOf_haltEvents, Streamer.counted_uid,
        List.nil_append]
      by_cases hu : s.uid = u <;> simp [hu, hmax]
    · simp only [if_neg hge, if_neg hmax, List.nil_append]
      have : killsOf u [] = [] := rfl
      rw [this]
      simp [hge, hmax]

theorem killsOf_passEvents_of_ne (u : String) (stat : String → Option Nat) (dvr : Dvr)
    (s : Streamer) (hne : s.uid ≠ u) : killsOf u (s.passEvents stat dvr) = [] := by
  unfold Streamer.passEvents
  split
  · rfl
  · split
    · rw [killsOf_checkEvents]
      simp [hne]
    · rfl

theorem killsOf_flatMap_of_nodup (stat : String → Option Nat) (dvr : Dvr) :
    ∀ (L : List Streamer) (s : Streamer), (L.map (fun t => t.uid)).Nodup → s ∈ L →
      killsOf s.uid (L.flatMap (fun t => t.passEvents stat dvr))
        = killsOf s.uid (s.passEvents stat dvr) := by
  have hnone : ∀ (L : List Streamer) (u : String), (∀ t ∈ L, t.uid ≠ u) →
      killsOf u (L.flatMap (fun t => t.passEvents stat dvr)) = [] := by
    intro L
    induction L with
    | nil => intro u _; rfl
    | cons hd tl ih =>
      intro u h
      rw [List.flatMap_cons, killsOf_append,
        killsOf_passEvents_of_ne u stat dvr hd (h hd (List.mem_cons_self _ _)),
        ih u (fun t ht => h t (List.mem_cons_of_mem _ ht))]
      rfl
  intro L
  induction L with
  | nil => intro s _ h; simp at h
  | cons hd tl ih =>
    intro s hnd hmem
    have hnd2 := List.nodup_cons.mp hnd
    rw [List.flatMap_cons, killsOf_append]
    rcases List.mem_cons.mp hmem with heq | htl
    · subst heq
      rw [hnone tl s.uid]
      · simp
      · intro t ht heq
        apply hnd2.1
        show s.uid ∈ _
        rw [← heq]
        exact List.mem_map_of_mem (fun t => t.uid) ht
    · have hne : hd.uid ≠ s.uid := by
        intro heq
        apply hnd2.1
        show hd.uid ∈ _
        rw [heq]
        exact List.mem_map_of_mem (fun t => t.uid) htl
      rw [killsOf_passEvents_of_ne s.uid stat dvr hd hne, ih s hnd2.2 htl]
      rfl

theorem checkFileSize_member (stat : String → Option Nat) (site : Site) (s : Streamer)
    (hwf : site.WellFormed) (hst : site.Statable stat) (hmem : s ∈ site.streamerList) :
    (site.checkFileSize stat).threw = false
    ∧ (site.checkFileSize stat).site.WellFormed
    ∧ (site.checkFileSize stat).site.dvr = site.dvr
    ∧ (site.checkFileSize stat).site.get? s.uid = some (s.passed stat site.dvr)
    ∧ s.passed stat site.dvr ∈ (site.checkFileSize stat).site.streamerList
    ∧ killsOf s.uid (site.checkFileSize stat).events
        = killsOf s.uid (s.passEvents stat site.dvr) := by
  rw [checkFileSize_eq stat site hwf hst]
  refine ⟨rfl, ?_, rfl, ?_, ?_, ?_⟩
  · unfold Site.WellFormed
    simp only [List.map_map]
    have : ((fun t : Streamer => t.uid) ∘ fun t : Streamer => t.passed stat site.dvr)
        = fun t : Streamer => t.uid := by
      funext t
      exact Streamer.passed_uid stat site.dvr t
    rw [this]
    exact hwf
  · exact find_map_of_nodup _ (Streamer.passed_uid stat site.dvr) _ s hwf hmem
  · exact List.mem_map_of_mem _ hmem
  · exact killsOf_flatMap_of_nodup stat site.dvr _ s hwf hmem

theorem passed_live (stat : String → Option Nat) (dvr : Dvr) (s : Streamer)
    (cp : CaptureProcess) (size : Nat)
    (hcp : s.captureProcess = some cp) (hpp : s.postProcess = 0)
    (hsize : stat (dvr.captureDirectory ++ "/" ++ s.filename) = some size) :
    s.passed stat dvr = s.checked (roundMB size)
    ∧ s.passEvents stat dvr = s.checkEvents dvr (roundMB size) := by
  have hsk : ¬ s.skipped := by
    unfold Streamer.skipped
    simp [hcp, hpp]
  unfold Streamer.passed Streamer.passEvents Streamer.capturePath
  rw [if_neg hsk, if_neg hsk, hsize]
  exact ⟨rfl, rfl⟩

theorem Streamer.counted_captureProcess (s : Streamer) (sizeMB : Nat) :
    (s.counted sizeMB).captureProcess = s.captureProcess := by
  unfold Streamer.counted; split <;> rfl

theorem Streamer.counted_postProcess (s : Streamer) (sizeMB : Nat) :
    (s.counted sizeMB).postProcess = s.postProcess := by
  unfold Streamer.counted; split <;> rfl

theorem counted_haltEvents (s : Streamer) (cp : CaptureProcess) (sizeMB : Nat)
    (hcp : s.captureProcess = some cp) (hpp : s.postProcess = 0) :
    (s.counted sizeMB).haltEvents = [Event.kill s.uid cp.pid "SIGINT"] := by
  unfold Streamer.haltEvents
  rw [Streamer.counted_captureProcess, Streamer.counted_postProcess, Streamer.counted_uid,
    hcp]
  simp [hpp]

/-- C4: in a pass of `checkFileSize` that finds the file of a live capture at the stored
size, a `stuckcounter` of 0 becomes 1 and the record gets no halt other than the one of
the size limit; a `stuckcounter` of 1 reaches 2, the process gets exactly one `SIGINT`
and the counter is 0 after the pass. -/
theorem checkFileSize_stuck_counter (stat : String → Option Nat) (site : Site)
    (s : Streamer) (cp : CaptureProcess) (size : Nat)
    (hwf : site.WellFormed) (hst : site.Statable stat) (hmem : s ∈ site.streamerList)
    (hcp : s.captureProcess = some cp) (hpp : s.postProcess = 0)
    (hsize : stat (site.dvr.captureDirectory ++ "/" ++ s.filename) = some size)
    (heq : s.filesize = JsNum.num (roundMB size)) :
    (s.stuckcounter = JsNum.num 0 →
      ((site.checkFileSize stat).site.get? s.uid).map (fun t => t.stuckcounter)
          = some (JsNum.num 1)
      ∧ killsOf s.uid (site.checkFileSize stat).events
          = if site.dvr.maxSize ≠ 0 ∧ roundMB size ≥ site.dvr.maxSize then
              [Event.kill s.uid cp.pid "SIGINT"]
            else [])
    ∧ (s.stuckcounter = JsNum.num 1 →
      ((site.checkFileSize stat).site.get? s.uid).map (fun t => t.stuckcounter)
          = some (JsNum.num 0)
      ∧ killsOf s.uid (site.checkFileSize stat).events
          = [Event.kill s.uid cp.pid "SIGINT"]) := by
  obtain ⟨_, _, _, hget, _, hkill⟩ := checkFileSize_member stat site s hwf hst hmem
  obtain ⟨hpass, hev⟩ := passed_live stat site.dvr s cp size hcp hpp hsize
  have hhalt := counted_haltEvents s cp (roundMB size) hcp hpp
  rw [hget, hkill, hpass, hev, killsOf_checkEvents, hhalt]
  have hse : s.filesize.strictEq (roundMB size) = true := by
    rw [heq]; simp [JsNum.strictEq]
  constructor
  · intro h0
    have hc : (s.counted (roundMB size)).stuckcounter = JsNum.num 1 := by
      simp [Streamer.counted, hse, h0, JsNum.incr]
    constructor
    · simp [Streamer.checked, hc, JsNum.ge]
    · simp [hc, JsNum.ge]
  · intro h1
    have hc : (s.counted (roundMB size)).stuckcounter = JsNum.num 2 := by
      simp [Streamer.counted, hse, h1, JsNum.incr]
    constructor
    · simp [Streamer.checked, hc, JsNum.ge]
    · simp [hc, JsNum.ge]

theorem checkFileSize_stuck_counter_witness :
    (((({ demoSite with streamerList := [demoCapturing "bob" 0, demoCapturing "alice" 1] }
          : Site).checkFileSize (fun _ => some 52428800)).site.get? "alice").map
        (fun t => t.stuckcounter) = some (JsNum.num 0)
    ∧ killsOf "alice"
        (({ demoSite with streamerList := [demoCapturing "bob" 0, demoCapturing "alice" 1] }
          : Site).checkFileSize (fun _ => some 52428800)).events
        = [Event.kill "alice" (some 4242) "SIGINT"]) :=
  (checkFileSize_stuck_counter (fun _ => some 52428800)
    { demoSite with streamerList := [demoCapturing "bob" 0, demoCapturing "alice" 1] }
    (demoCapturing "alice" 1) ⟨some 4242⟩ 52428800
    (by decide) (by decide) (by decide) rfl rfl rfl (by decide)).2 rfl
theorem not_exceeded_of_mem_haltEvents (s : Streamer) (e : Event) (h : e ∈ s.haltEvents) :
    ∀ nm sz mx, e ≠ Event.info (Msg.exceededSize nm sz mx) := by
  intro nm sz mx
  unfold Streamer.haltEvents at h
  cases hcp : s.captureProcess with
  | none => simp [hcp] at h
  | some cp =>
    by_cases hpp : s.postProcess = 0
    · simp [hcp, hpp] at h
      rw [h]
      simp
    · simp [hcp, hpp] at h

theorem not_exceeded_of_mem_passEvents (stat : String → Option Nat) (dvr : Dvr)
    (hmax : dvr.maxSize = 0) (s : Streamer) (e : Event) (h : e ∈ s.passEvents stat dvr) :
    ∀ nm sz mx, e ≠ Event.info (Msg.exceededSize nm sz mx) := by
  intro nm sz mx
  unfold Streamer.passEvents at h
  split at h
  · simp at h
  · split at h
    · rename_i size _
      unfold Streamer.checkEvents at h
      have hno : ¬ (dvr.maxSize ≠ 0 ∧ roundMB size ≥ dvr.maxSize) := by simp [hmax]
      rw [if_neg hno] at h
      simp only [List.mem_append] at h
      rcases h with (h | h) | h
      · split at h
        · simp at h; rw [h]; simp
        · simp at h
      · split at h
        · simp at h; rw [h]; simp
        · simp at h
      · split at h
        · rcases List.mem_cons.mp h with h | h
          · rw [h]; simp
          · exact not_exceeded_of_mem_haltEvents _ e h nm sz mx
        · simp at h
    · simp at h

/-- C6: in a pass of `checkFileSize` over a live capture, with `maxSize = 0` no size-limit
halt is reported and the process is signalled only when the stuck counter reaches 2; with
`maxSize = N > 0` and an observed size of at least `N` MB the process gets exactly one
`SIGINT`, whether or not the stuck condition holds in the same pass. -/
theorem checkFileSize_size_limit (stat : String → Option Nat) (site : Site)
    (s : Streamer) (cp : CaptureProcess) (size : Nat)
    (hwf : site.WellFormed) (hst : site.Statable stat) (hmem : s ∈ site.streamerList)
    (hcp : s.captureProcess = some cp) (hpp : s.postProcess = 0)
    (hsize : stat (site.dvr.captureDirectory ++ "/" ++ s.filename) = some size) :
    (site.dvr.maxSize = 0 →
      (∀ nm sz mx,
          Event.info (Msg.exceededSize nm sz mx) ∉ (site.checkFileSize stat).events)
      ∧ ((if s.filesize.strictEq (roundMB size) then s.stuckcounter.incr
            else s.stuckcounter).ge 2 = false →
          killsOf s.uid (site.checkFileSize stat).events = []))
    ∧ (site.dvr.maxSize ≠ 0 → roundMB size ≥ site.dvr.maxSize →
      killsOf s.uid (site.checkFileSize stat).events
        = [Event.kill s.uid cp.pid "SIGINT"]) := by
  obtain ⟨_, _, _, _, _, hkill⟩ := checkFileSize_member stat site s hwf hst hmem
  obtain ⟨_, hev⟩ := passed_live stat site.dvr s cp size hcp hpp hsize
  have hhalt := counted_haltEvents s cp (roundMB size) hcp hpp
  have hcnt : (s.counted (roundMB size)).stuckcounter
      = if s.filesize.strictEq (roundMB size) then s.stuckcounter.incr
        else s.stuckcounter := by
    unfold Streamer.counted
    split <;> rfl
  rw [hkill, hev, killsOf_checkEvents, hhalt, hcnt]
  constructor
  · intro hmax
    constructor
    · intro nm sz mx hin
      rw [checkFileSize_eq stat site hwf hst] at hin
      simp only [List.mem_flatMap] at hin
      obtain ⟨t, _, ht⟩ := hin
      exact not_exceeded_of_mem_passEvents stat site.dvr hmax t _ ht nm sz mx rfl
    · intro hge
      simp [hge, hmax]
  · intro hmax hsz
    simp [hmax, hsz]

theorem checkFileSize_size_limit_witness :
    killsOf "alice"
        (({ demoSite with
            dvr := { demoDvr with maxSize := 40 }
            streamerList := [demoCapturing "bob" 0, demoCapturing "alice" 1] }
          : Site).checkFileSize (fun _ => some 52428800)).events
      = [Event.kill "alice" (some 4242) "SIGINT"] :=
  (checkFileSize_size_limit (fun _ => some 52428800)
    { demoSite with
      dvr := { demoDvr with maxSize := 40 }
      streamerList := [demoCapturing "bob" 0, demoCapturing "alice" 1] }
    (demoCapturing "alice" 1) ⟨some 4242⟩ 52428800
    (by decide) (by decide) (by decide) rfl rfl rfl).2 (by decide) (by decide)

theorem find_append_fresh (L : List Streamer) (x : Streamer) (uid : String)
    (hx : x.uid = uid) (hnew : L.find? (fun s => s.uid == uid) = none) :
    (L ++ [x]).find? (fun s => s.uid == uid) = some x := by
  rw [List.find?_append, hnew]
  simp [List.find?, hx]

theorem updateFirst_append_fresh (f : Streamer → Streamer) (x : Streamer) (uid : String)
    (hx : x.uid = uid) :
    ∀ (L : List Streamer), L.find? (fun s => s.uid == uid) = none →
      updateFirst uid f (L ++ [x]) = L ++ [f x] := by
  intro L
  induction L with
  | nil => intro _; simp [updateFirst, hx]
  | cons hd tl ih =>
    intro hnew
    simp only [List.find?] at hnew
    cases hb : (hd.uid == uid) with
    | true => rw [hb] at hnew; exact Option.noConfusion hnew
    | false =>
      rw [hb] at hnew
      rw [List.cons_append]
      unfold updateFirst
      rw [hb, ih hnew]
      rfl

theorem freshCapture_eq (site : Site) (id : Id) (list : List String) (options : Options)
    (url dateTime : String) (calcPath : String → String) (spawned : CaptureProcess)
    (hnew : site.has id.uid = false) (hpid : spawned.hasPid = true) :
    freshCapture site id list options url dateTime calcPath spawned
      = { site with
          streamerList :=
            site.streamerList ++ [freshRecord site id options dateTime spawned] } := by
  have hnone : site.streamerList.find? (fun s => s.uid == id.uid) = none := by
    simpa [Site.has, Site.get?] using hnew
  unfold freshCapture
  simp only [Site.addStreamer, hnew, Bool.not_false, if_true]
  simp only [Site.get?]
  rw [find_append_fresh site.streamerList _ id.uid rfl hnone]
  simp only [Basic.setupCapture, Site.setupCapture, Site.get?]
  rw [find_append_fresh site.streamerList _ id.uid rfl hnone]
  simp only [ne_eq, not_true_eq_false, if_false, Bool.not_true, Bool.false_eq_true,
    Site.startCapture, hpid, if_true, Site.storeCapInfo, Site.modify]
  rw [updateFirst_append_fresh _ _ id.uid rfl site.streamerList hnone]
  rfl

theorem Streamer.checked_fields (s : Streamer) (sizeMB : Nat) :
    (s.checked sizeMB).captureProcess = s.captureProcess
    ∧ (s.checked sizeMB).postProcess = s.postProcess
    ∧ (s.checked sizeMB).filename = s.filename := by
  unfold Streamer.checked Streamer.counted
  split <;> split <;> exact ⟨rfl, rfl, rfl⟩

theorem Streamer.passed_fields (stat : String → Option Nat) (dvr : Dvr) (s : Streamer) :
    (s.passed stat dvr).captureProcess = s.captureProcess
    ∧ (s.passed stat dvr).postProcess = s.postProcess
    ∧ (s.passed stat dvr).filename = s.filename := by
  unfold Streamer.passed
  split
  · exact ⟨rfl, rfl, rfl⟩
  · split
    · exact Streamer.checked_fields _ _
    · exact ⟨rfl, rfl, rfl⟩

theorem statable_checkFileSize (stat stat2 : String → Option Nat) (site : Site)
    (hwf : site.WellFormed) (hst : site.Statable stat) (hst2 : site.Statable stat2) :
    (site.checkFileSize stat).site.Statable stat2 := by
  rw [checkFileSize_eq stat site hwf hst]
  intro s hs hsk
  simp only [List.mem_map] at hs
  obtain ⟨t, ht, rfl⟩ := hs
  obtain ⟨h1, h2, h3⟩ := Streamer.passed_fields stat site.dvr t
  have hsk2 : ¬ t.skipped := by
    unfold Streamer.skipped at hsk ⊢
    rw [h1, h2] at hsk
    exact hsk
  have := hst2 t ht hsk2
  unfold Streamer.capturePath at this ⊢
  rw [h3]
  exact this

theorem checkFileSize_live (stat : String → Option Nat) (site : Site)
    (s : Streamer) (cp : CaptureProcess) (size : Nat)
    (hwf : site.WellFormed) (hst : site.Statable stat) (hmem : s ∈ site.streamerList)
    (hcp : s.captureProcess = some cp) (hpp : s.postProcess = 0)
    (hsize : stat (site.dvr.captureDirectory ++ "/" ++ s.filename) = some size) :
    (site.checkFileSize stat).site.WellFormed
    ∧ (site.checkFileSize stat).site.dvr = site.dvr
    ∧ (site.checkFileSize stat).site.get? s.uid = some (s.checked (roundMB size))
    ∧ s.checked (roundMB size) ∈ (site.checkFileSize stat).site.streamerList
    ∧ killsOf s.uid (site.checkFileSize stat).events
        = if (s.counted (roundMB size)).stuckcounter.ge 2 = true
              ∨ (site.dvr.maxSize ≠ 0 ∧ roundMB size ≥ site.dvr.maxSize) then
            [Event.kill s.uid cp.pid "SIGINT"]
          else [] := by
  obtain ⟨_, hwf2, hdvr, hget, hmem2, hkill⟩ := checkFileSize_member stat site s hwf hst hmem
  obtain ⟨hpass, hev⟩ := passed_live stat site.dvr s cp size hcp hpp hsize
  have hhalt := counted_haltEvents s cp (roundMB size) hcp hpp
  rw [hpass] at hget hmem2
  rw [hev, killsOf_checkEvents, hhalt] at hkill
  refine ⟨hwf2, hdvr, hget, hmem2, ?_⟩
  rw [hkill]
  simp

/-- C5, amended: a streamer added by `addStreamer` whose capture is then started, and
whose file is found at 50 MB in three consecutive passes of `checkFileSize`, has
`stuckcounter` 1 and no stuck halt after the second pass (only the size limit can have
signalled it), and gets exactly one `SIGINT` in the third pass, after which `stuckcounter`
is 0. -/
theorem fresh_streamer_three_passes (site : Site) (id : Id) (list : List String)
    (options : Options) (url dateTime : String) (calcPath : String → String)
    (spawned : CaptureProcess) (stat1 stat2 stat3 : String → Option Nat)
    (size1 size2 size3 : Nat)
    (hwf : site.WellFormed) (hnew : site.has id.uid = false) (hpid : spawned.hasPid = true)
    (hst1 : (freshCapture site id list options url dateTime calcPath spawned).Statable stat1)
    (hst2 : (freshCapture site id list options url dateTime calcPath spawned).Statable stat2)
    (hst3 : (freshCapture site id list options url dateTime calcPath spawned).Statable stat3)
    (h1 : stat1 (site.dvr.captureDirectory ++ "/" ++ (site.getFileName id.nm dateTime ++ ".ts"))
            = some size1)
    (h2 : stat2 (site.dvr.captureDirectory ++ "/" ++ (site.getFileName id.nm dateTime ++ ".ts"))
            = some size2)
    (h3 : stat3 (site.dvr.captureDirectory ++ "/" ++ (site.getFileName id.nm dateTime ++ ".ts"))
            = some size3)
    (hr1 : roundMB size1 = 50) (hr2 : roundMB size2 = 50) (hr3 : roundMB size3 = 50) :
    ((((freshCapture site id list options url dateTime calcPath spawned).checkFileSize
          stat1).site.checkFileSize stat2).site.get? id.uid).map (fun t => t.stuckcounter)
        = some (JsNum.num 1)
    ∧ killsOf id.uid
        (((freshCapture site id list options url dateTime calcPath spawned).checkFileSize
          stat1).site.checkFileSize stat2).events
        = (if site.dvr.maxSize ≠ 0 ∧ 50 ≥ site.dvr.maxSize then
            [Event.kill id.uid spawned.pid "SIGINT"] else [])
    ∧ (((((freshCapture site id list options url dateTime calcPath spawned).checkFileSize
          stat1).site.checkFileSize stat2).site.checkFileSize stat3).site.get? id.uid).map
          (fun t => t.stuckcounter)
        = some (JsNum.num 0)
    ∧ killsOf id.uid
        ((((freshCapture site id list options url dateTime calcPath spawned).checkFileSize
          stat1).site.checkFileSize stat2).site.checkFileSize stat3).events
        = [Event.kill id.uid spawned.pid "SIGINT"] := by
  have hnone : site.streamerList.find? (fun s => s.uid == id.uid) = none := by
    simpa [Site.has, Site.get?] using hnew
  have hstart := freshCapture_eq site id list options url dateTime calcPath spawned hnew hpid
  rw [hstart] at hst1 hst2 hst3 ⊢
  generalize hS : ({ site with
      streamerList :=
        site.streamerList ++ [freshRecord site id options dateTime spawned] } : Site) = start
    at hst1 hst2 hst3 ⊢
  have hdvr0 : start.dvr = site.dvr := by rw [← hS]
  have hwf0 : start.WellFormed := by
    rw [← hS]
    unfold Site.WellFormed at hwf ⊢
    simp only [List.map_append, List.map_cons, List.map_nil]
    apply List.Nodup.append hwf (List.nodup_singleton _)
    rw [List.disjoint_singleton]
    intro hin
    obtain ⟨t, ht, htu⟩ := List.mem_map.mp hin
    have := List.find?_eq_none.mp hnone t ht
    apply this
    simp only [freshRecord] at htu
    simp [htu]
  have hmem0 : freshRecord site id options dateTime spawned ∈ start.streamerList := by
    rw [← hS]; simp
  -- first pass: the size differs from the initial 0, the baseline becomes 50
  obtain ⟨hwf1, hdvr1, _, hmem1, _⟩ :=
    checkFileSize_live stat1 start (freshRecord site id options dateTime spawned) spawned size1
      hwf0 hst1 hmem0 rfl rfl (by rw [hdvr0]; exact h1)
  have hst1b := statable_checkFileSize stat1 stat2 start hwf0 hst1 hst2
  have hst1c := statable_checkFileSize stat1 stat3 start hwf0 hst1 hst3
  rw [hr1] at hmem1
  generalize (start.checkFileSize stat1).site = p1 at hwf1 hdvr1 hmem1 hst1b hst1c ⊢
  -- second pass
  obtain ⟨hwf2, hdvr2, hget2, hmem2, hkill2⟩ :=
    checkFileSize_live stat2 p1
      ((freshRecord site id options dateTime spawned).checked 50) spawned size2
      hwf1 hst1b hmem1 rfl rfl (by rw [hdvr1, hdvr0]; exact h2)
  have hst2c := statable_checkFileSize stat2 stat3 p1 hwf1 hst1b hst1c
  rw [hr2] at hget2 hmem2 hkill2
  have hkill2b : killsOf id.uid (p1.checkFileSize stat2).events
      = if site.dvr.maxSize ≠ 0 ∧ 50 ≥ site.dvr.maxSize then
          [Event.kill id.uid spawned.pid "SIGINT"] else [] := by
    have huid : ((freshRecord site id options dateTime spawned).checked 50).uid = id.uid := rfl
    rw [huid, hdvr1, hdvr0] at hkill2
    rw [hkill2]
    have hc : (((freshRecord site id options dateTime spawned).checked 50).counted 50).stuckcounter
        = JsNum.num 1 := rfl
    simp [hc, JsNum.ge]
  have hget2b : (p1.checkFileSize stat2).site.get? id.uid
      = some (((freshRecord site id options dateTime spawned).checked 50).checked 50) := hget2
  refine ⟨by rw [hget2b]; rfl, hkill2b, ?_⟩
  generalize (p1.checkFileSize stat2).site = p2 at hwf2 hdvr2 hmem2 hst2c ⊢
  -- third pass
  obtain ⟨_, _, hget3, _, hkill3⟩ :=
    checkFileSize_live stat3 p2
      (((freshRecord site id options dateTime spawned).checked 50).checked 50) spawned size3
      hwf2 hst2c hmem2 rfl rfl (by rw [hdvr2, hdvr1, hdvr0]; exact h3)
  rw [hr3] at hget3 hkill3
  have hget3b : (p2.checkFileSize stat3).site.get? id.uid
      = some ((((freshRecord site id options dateTime spawned).checked 50).checked 50).checked
          50) := hget3
  have huid3 : (((freshRecord site id options dateTime spawned).checked 50).checked 50).uid
      = id.uid := rfl
  have hc3 : ((((freshRecord site id options dateTime spawned).checked 50).checked 50).counted
      50).stuckcounter = JsNum.num 2 := rfl
  rw [huid3] at hkill3
  refine ⟨by rw [hget3b]; rfl, ?_⟩
  rw [hkill3]
  simp [hc3, JsNum.ge]

/-- C5, as stated, fails: after `addStreamer`, the start of the capture and two passes of
`checkFileSize` that both find 50 MB, no signal has been sent at all and `stuckcounter`
is 1, not 0 (the first pass only stores 50 as the baseline). -/
theorem fresh_two_passes_no_halt :
    scenarioStart.get? "alice"
      = some { uid := "alice", nm := "alice", site := "TWITCH   ", state := "Offline",
               filename := "alice_20200101.ts", captureProcess := some ⟨some 4242⟩,
               postProcess := 0, filesize := JsNum.num 0, stuckcounter := JsNum.num 0,
               isTemp := some false, paused := some false }
    ∧ roundMB 52428800 = 50
    ∧ kills (scenarioStart.checkFileSize stat50).events = []
    ∧ kills ((scenarioStart.checkFileSize stat50).site.checkFileSize stat50).events = []
    ∧ (((scenarioStart.checkFileSize stat50).site.checkFileSize stat50).site.get?
          "alice").map (fun t => t.stuckcounter) = some (JsNum.num 1) := by
  decide

theorem fresh_streamer_three_passes_witness :
    ((((freshCapture demoSite ⟨"alice", "alice"⟩ [] demoAdd "http://cdn/alice.m3u8"
          "20200101" (fun p => p) ⟨some 4242⟩).checkFileSize
          stat50).site.checkFileSize stat50).site.get? "alice").map (fun t => t.stuckcounter)
        = some (JsNum.num 1)
    ∧ killsOf "alice"
        (((freshCapture demoSite ⟨"alice", "alice"⟩ [] demoAdd "http://cdn/alice.m3u8"
          "20200101" (fun p => p) ⟨some 4242⟩).checkFileSize
          stat50).site.checkFileSize stat50).events
        = (if demoSite.dvr.maxSize ≠ 0 ∧ 50 ≥ demoSite.dvr.maxSize then
            [Event.kill "alice" (some 4242) "SIGINT"] else [])
    ∧ (((((freshCapture demoSite ⟨"alice", "alice"⟩ [] demoAdd "http://cdn/alice.m3u8"
          "20200101" (fun p => p) ⟨some 4242⟩).checkFileSize
          stat50).site.checkFileSize stat50).site.checkFileSize stat50).site.get?
          "alice").map (fun t => t.stuckcounter)
        = some (JsNum.num 0)
    ∧ killsOf "alice"
        ((((freshCapture demoSite ⟨"alice", "alice"⟩ [] demoAdd "http://cdn/alice.m3u8"
          "20200101" (fun p => p) ⟨some 4242⟩).checkFileSize
          stat50).site.checkFileSize stat50).site.checkFileSize stat50).events
        = [Event.kill "alice" (some 4242) "SIGINT"] :=
  fresh_streamer_three_passes demoSite ⟨"alice", "alice"⟩ [] demoAdd "http://cdn/alice.m3u8"
    "20200101" (fun p => p) ⟨some 4242⟩ stat50 stat50 stat50 52428800 52428800 52428800
    (by decide) (by decide) (by decide) (by decide) (by decide) (by decide)
    rfl rfl rfl (by decide) (by decide) (by decide)

/-! ## Halting captures: claims C7 and C8 -/

theorem get?_uid (site : Site) (uid : String) (s : Streamer) (h : site.get? uid = some s) :
    s.uid = uid := by
  unfold Site.get? at h
  have := List.find?_some h
  simpa using this

theorem haltCapture_fst (site : Site) (uid : String) : (site.haltCapture uid).1 = site := by
  unfold Site.haltCapture
  split
  · split
    · split <;> rfl
    · rfl
  · rfl

theorem haltCapture_snd (site : Site) (uid : String) (s : Streamer)
    (h : site.get? uid = some s) : (site.haltCapture uid).2 = s.haltEvents := by
  unfold Site.haltCapture Streamer.haltEvents
  rw [h]
  simp only
  cases s.captureProcess with
  | none => rfl
  | some cp =>
    simp only
    split <;> rfl

/-- C7: `haltCapture(uid)` sends exactly one `SIGINT`, to the capture process of the
record of `uid`, when the uid is tracked, the record has a capture process and its
`postProcess` is 0; it sends nothing when the uid is not tracked, there is no capture
process or post-processing is in progress; it never changes the site. -/
theorem haltCapture_signal (site : Site) (uid : String) :
    (∀ s cp, site.get? uid = some s → s.captureProcess = some cp → s.postProcess = 0 →
        (site.haltCapture uid).2 = [Event.kill uid cp.pid "SIGINT"])
    ∧ (site.get? uid = none → (site.haltCapture uid).2 = [])
    ∧ (∀ s, site.get? uid = some s → s.captureProcess = none ∨ s.postProcess ≠ 0 →
        (site.haltCapture uid).2 = [])
    ∧ (site.haltCapture uid).1 = site := by
  refine ⟨?_, ?_, ?_, haltCapture_fst site uid⟩
  · intro s cp hs hcp hpp
    rw [haltCapture_snd site uid s hs]
    unfold Streamer.haltEvents
    rw [hcp, get?_uid site uid s hs]
    simp [hpp]
  · intro hs
    unfold Site.haltCapture
    rw [hs]
  · intro s hs hor
    rw [haltCapture_snd site uid s hs]
    unfold Streamer.haltEvents
    rcases hor with hcp | hpp
    · rw [hcp]
    · cases s.captureProcess with
      | none => rfl
      | some cp => simp [hpp]

theorem haltCapture_signal_witness :
    (({ demoSite with streamerList := [demoCapturing "bob" 0, demoCapturing "alice" 1] }
        : Site).haltCapture "alice").2 = [Event.kill "alice" (some 4242) "SIGINT"] :=
  (haltCapture_signal
    { demoSite with streamerList := [demoCapturing "bob" 0, demoCapturing "alice" 1] }
    "alice").1 (demoCapturing "alice" 1) ⟨some 4242⟩ (by decide) rfl rfl

theorem get?_of_mem (site : Site) (hwf : site.WellFormed) (s : Streamer)
    (hmem : s ∈ site.streamerList) : site.get? s.uid = some s := by
  have := find_map_of_nodup (fun t => t) (fun _ => rfl) site.streamerList s hwf hmem
  simpa [Site.get?] using this

theorem haltEach_eq (site : Site) :
    ∀ (l : List Streamer), (∀ t ∈ l, site.get? t.uid = some t) →
      haltEach site (l.map (fun t => t.uid)) = (site, l.flatMap (fun t => t.haltEvents)) := by
  intro l
  induction l with
  | nil => intro _; rfl
  | cons hd tl ih =>
    intro h
    simp only [List.map_cons, haltEach, haltCapture_fst,
      haltCapture_snd site hd.uid hd (h hd (List.mem_cons_self _ _)),
      ih (fun t ht => h t (List.mem_cons_of_mem _ ht)), List.flatMap_cons]

theorem killsOf_flatMap_haltEvents :
    ∀ (L : List Streamer) (s : Streamer), (L.map (fun t => t.uid)).Nodup → s ∈ L →
      killsOf s.uid (L.flatMap (fun t => t.haltEvents)) = s.haltEvents := by
  have hnone : ∀ (L : List Streamer) (u : String), (∀ t ∈ L, t.uid ≠ u) →
      killsOf u (L.flatMap (fun t => t.haltEvents)) = [] := by
    intro L
    induction L with
    | nil => intro u _; rfl
    | cons hd tl ih =>
      intro u h
      rw [List.flatMap_cons, killsOf_append, killsOf_haltEvents,
        if_neg (h hd (List.mem_cons_self _ _)),
        ih u (fun t ht => h t (List.mem_cons_of_mem _ ht))]
      rfl
  intro L
  induction L with
  | nil => intro s _ h; simp at h
  | cons hd tl ih =>
    intro s hnd hmem
    have hnd2 := List.nodup_cons.mp hnd
    rw [List.flatMap_cons, killsOf_append]
    rcases List.mem_cons.mp hmem with heq | htl
    · subst heq
      rw [hnone tl s.uid, killsOf_haltEvents]
      · simp
      · intro t ht heq
        apply hnd2.1
        show s.uid ∈ _
        rw [← heq]
        exact List.mem_map_of_mem (fun t => t.uid) ht
    · have hne : hd.uid ≠ s.uid := by
        intro heq
        apply hnd2.1
        show hd.uid ∈ _
        rw [heq]
        exact List.mem_map_of_mem (fun t => t.uid) htl
      rw [killsOf_haltEvents, if_neg hne, ih s hnd2.2 htl]
      rfl

/-- C8: `haltAllCaptures()` does what calling `haltCapture(uid)` for every tracked uid in
registry order does: the same signals in the same order and the same (unchanged) state;
every record with a capture process and `postProcess = 0` gets exactly one `SIGINT`, every
other record none. -/
theorem haltAllCaptures_eq_haltEach (site : Site) (hwf : site.WellFormed) :
    site.haltAllCaptures = haltEach site (site.streamerList.map (fun s => s.uid))
    ∧ (∀ s ∈ site.streamerList, ∀ cp, s.captureProcess = some cp → s.postProcess = 0 →
        killsOf s.uid site.haltAllCaptures.2 = [Event.kill s.uid cp.pid "SIGINT"])
    ∧ (∀ s ∈ site.streamerList, s.captureProcess = none ∨ s.postProcess ≠ 0 →
        killsOf s.uid site.haltAllCaptures.2 = []) := by
  have hall : site.haltAllCaptures
      = (site, site.streamerList.flatMap (fun t => t.haltEvents)) := rfl
  refine ⟨?_, ?_, ?_⟩
  · rw [haltEach_eq site site.streamerList (fun t ht => get?_of_mem site hwf t ht), hall]
  · intro s hs cp hcp hpp
    rw [hall]
    simp only
    rw [killsOf_flatMap_haltEvents site.streamerList s hwf hs]
    unfold Streamer.haltEvents
    rw [hcp]
    simp [hpp]
  · intro s hs hor
    rw [hall]
    simp only
    rw [killsOf_flatMap_haltEvents site.streamerList s hwf hs]
    unfold Streamer.haltEvents
    rcases hor with hcp | hpp
    · rw [hcp]
    · cases s.captureProcess with
      | none => rfl
      | some cp => simp [hpp]

theorem haltAllCaptures_eq_haltEach_witness :
    ({ demoSite with
        streamerList :=
          [demoCapturing "bob" 0, { demoCapturing "carol" 0 with postProcess := 1 },
           demoCapturing "alice" 1] } : Site).haltAllCaptures
      = haltEach
          { demoSite with
            streamerList :=
              [demoCapturing "bob" 0, { demoCapturing "carol" 0 with postProcess := 1 },
               demoCapturing "alice" 1] }
          ["bob", "carol", "alice"] :=
  (haltAllCaptures_eq_haltEach
    { demoSite with
      streamerList :=
        [demoCapturing "bob" 0, { demoCapturing "carol" 0 with postProcess := 1 },
         demoCapturing "alice" 1] }
    (by decide)).1

/-! ## Start and end of a capture: claims C9 and C10 -/

/-- C9: when the uid of the streamer is not tracked, or its record already has a capture
process, `Site.setupCapture` returns false, `Basic.setupCapture` returns the refusal (empty
`spawnArgs`), and `startCapture` with that result spawns nothing and leaves the site, hence
the record's `captureProcess` and `filename`, as it was, whether the registry holds the
object that was handed over or not; for a tracked record without a capture process
`Site.setupCapture` returns true. -/
theorem setupCapture_refuses_second_capture (site : Site) (streamer : Streamer)
    (url dateTime : String) (calcPath : String → String) (held : Held)
    (spawned : CaptureProcess) :
    ((site.get? streamer.uid = none
        ∨ ∃ t cp, site.get? streamer.uid = some t ∧ t.captureProcess = some cp) →
      (site.setupCapture streamer.uid).1 = false
      ∧ (Basic.setupCapture site streamer url dateTime).1 = ⟨none, "", none⟩
      ∧ site.startCapture calcPath (Basic.setupCapture site streamer url dateTime).1 held
            spawned
          = (site, []))
    ∧ (∀ t, site.get? streamer.uid = some t → t.captureProcess = none →
        (site.setupCapture streamer.uid).1 = true) := by
  constructor
  · intro h
    have hfalse : (site.setupCapture streamer.uid).1 = false := by
      unfold Site.setupCapture
      rcases h with hnone | ⟨t, cp, ht, hcp⟩
      · rw [hnone]
      · rw [ht]
        simp [hcp]
    have hcap : (Basic.setupCapture site streamer url dateTime).1 = ⟨none, "", none⟩ := by
      unfold Basic.setupCapture
      simp [hfalse]
    refine ⟨hfalse, hcap, ?_⟩
    rw [hcap]
    rfl
  · intro t ht hcp
    unfold Site.setupCapture
    rw [ht]
    simp [hcp]

theorem setupCapture_refuses_second_capture_witness :
    (({ demoSite with streamerList := [demoCapturing "alice" 0] } : Site).setupCapture
        (demoCapturing "alice" 0).uid).1 = false
    ∧ (Basic.setupCapture { demoSite with streamerList := [demoCapturing "alice" 0] }
        (demoCapturing "alice" 0) "http://cdn/alice.m3u8" "20200102").1 = ⟨none, "", none⟩
    ∧ ({ demoSite with streamerList := [demoCapturing "alice" 0] } : Site).startCapture
        (fun p => p)
        (Basic.setupCapture { demoSite with streamerList := [demoCapturing "alice" 0] }
          (demoCapturing "alice" 0) "http://cdn/alice.m3u8" "20200102").1 Held.tracked
        ⟨some 4343⟩
        = ({ demoSite with streamerList := [demoCapturing "alice" 0] }, []) :=
  (setupCapture_refuses_second_capture
    { demoSite with streamerList := [demoCapturing "alice" 0] } (demoCapturing "alice" 0)
    "http://cdn/alice.m3u8" "20200102" (fun p => p) Held.tracked ⟨some 4343⟩).1
    (Or.inr ⟨demoCapturing "alice" 0, ⟨some 4242⟩, by decide, rfl⟩)

theorem find_updateFirst (uid : String) (f : Streamer → Streamer)
    (hf : ∀ t, (f t).uid = t.uid) :
    ∀ (L : List Streamer),
      (updateFirst uid f L).find? (fun s => s.uid == uid)
        = (L.find? (fun s => s.uid == uid)).map f := by
  intro L
  induction L with
  | nil => rfl
  | cons hd tl ih =>
    unfold updateFirst
    cases hb : (hd.uid == uid) with
    | true => simp [List.find?, hb, hf]
    | false => simp [List.find?, hb, ih]

theorem updateFirst_uids (uid : String) (f : Streamer → Streamer)
    (hf : ∀ t, (f t).uid = t.uid) :
    ∀ (L : List Streamer), (updateFirst uid f L).map (fun t => t.uid) = L.map (fun t => t.uid) := by
  intro L
  induction L with
  | nil => rfl
  | cons hd tl ih =>
    unfold updateFirst
    split
    · simp [hf]
    · simp [ih]

theorem updateFirst_other (uid : String) (f : Streamer → Streamer) :
    ∀ (L : List Streamer) (i : Nat) (t : Streamer), L[i]? = some t → t.uid ≠ uid →
      (updateFirst uid f L)[i]? = some t := by
  intro L
  induction L with
  | nil => intro i t h; simp at h
  | cons hd tl ih =>
    intro i t h hne
    unfold updateFirst
    cases i with
    | zero =>
      simp only [List.getElem?_cons_zero, Option.some.injEq] at h
      subst h
      have hb : (hd.uid == uid) = false := by simpa using hne
      simp [hb]
    | succ i =>
      simp only [List.getElem?_cons_succ] at h
      split
      · simpa using h
      · simpa using ih i t h hne

/-- C10, as stated, fails: the capture of a streamer in state "Streaming" exits with a
2 MB file while `minSize` is 5 MB; the handler clears the handle and the file name and
removes the file, but the state is still "Streaming", not "Offline". -/
theorem captureClosed_small_file_keeps_state :
    belowMinSize 2097152 demoRecording.dvr.minSize = true
    ∧ (((demoRecording.captureClosed
          { demoCapturing "alice" 0 with filename := "alice_20200101.ts" } Held.tracked
          "alice_20200101"
          (StatResult.stats 2097152)).1.get? "alice").map (fun t => t.state)
        = some "Streaming")
    ∧ (((demoRecording.captureClosed
          { demoCapturing "alice" 0 with filename := "alice_20200101.ts" } Held.tracked
          "alice_20200101"
          (StatResult.stats 2097152)).1.get? "alice").map (fun t => t.captureProcess)
        = some none) := by
  decide

/-- The handler of a capture whose streamer was removed and added again: "alice" is
recorded by process 4343 to `alice_20200102.ts` when the process 4242 of her earlier record
exits with a 2 MB file.  The file `alice_20200101.ts` is removed, and the record that the
registry holds keeps its handle and its file name. -/
theorem captureClosed_detached_keeps_new_capture :
    demoReAdded.get? "alice"
      = some { Site.newRecord demoSite ⟨"alice", "alice"⟩ demoAdd with
                filename := "alice_20200102.ts", captureProcess := some ⟨some 4343⟩ }
    ∧ ((demoReAdded.captureClosed
        { demoCapturing "alice" 0 with filename := "alice_20200101.ts" } Held.detached
        "alice_20200101" (StatResult.stats 2097152)).1.get? "alice")
      = demoReAdded.get? "alice"
    ∧ Event.unlink "/capturing/alice_20200101.ts"
        ∈ (demoReAdded.captureClosed
            { demoCapturing "alice" 0 with filename := "alice_20200101.ts" } Held.detached
            "alice_20200101" (StatResult.stats 2097152)).2 := by
  decide

/-- C10, amended: when a capture process exits and its output file exists with fewer bytes
than `minSize` megabytes, the handler removes the file, leaves the post-process queue as it
was and does not signal its consumer.  It assigns `captureProcess = null` and
`filename = ""` to the record object that the capture was started for and to nothing else.
When the registry holds that object, the record of the uid has both cleared and every other
field, the state among them, as it was (the state is not set to "Offline"), and every
record with another uid stays as it was, in its place.  When the registry does not hold
that object any more (the streamer was removed, or removed and added again), the registry
is left as it was. -/
theorem captureClosed_small_file (site : Site) (streamer : Streamer) (held : Held)
    (filename : String) (size : Nat)
    (hsmall : belowMinSize size site.dvr.minSize = true) :
    Event.unlink (site.dvr.captureDirectory ++ "/" ++ (filename ++ ".ts"))
        ∈ (site.captureClosed streamer held filename (StatResult.stats size)).2
    ∧ (site.captureClosed streamer held filename (StatResult.stats size)).1.dvr.postProcessQ
        = site.dvr.postProcessQ
    ∧ Event.postProcess
        ∉ (site.captureClosed streamer held filename (StatResult.stats size)).2
    ∧ (held = Held.tracked → site.get? streamer.uid = some streamer →
        (site.captureClosed streamer held filename (StatResult.stats size)).1.get?
            streamer.uid
          = some { streamer with filename := "", captureProcess := none }
        ∧ ((site.captureClosed streamer held filename (StatResult.stats size)).1.get?
            streamer.uid).map (fun r => r.state) = some streamer.state
        ∧ ∀ (i : Nat) (t : Streamer), site.streamerList[i]? = some t →
            t.uid ≠ streamer.uid →
            (site.captureClosed streamer held filename
              (StatResult.stats size)).1.streamerList[i]? = some t)
    ∧ (held = Held.detached →
        (site.captureClosed streamer held filename (StatResult.stats size)).1.streamerList
          = site.streamerList) := by
  refine ⟨?_, ?_, ?_, ?_, ?_⟩
  · simp [Site.captureClosed, hsmall]
  · cases held <;> simp [Site.captureClosed, hsmall, Site.storeCapInfo, Site.modify]
  · simp only [Site.captureClosed, hsmall, if_true, Site.storeCapInfo, Site.render,
      Site.refresh]
    intro hin
    simp only [List.mem_append, List.mem_cons] at hin
    rcases hin with (h | h) | h
    · split at h
      · simp at h
      · simp at h
    · simp at h
    · split at h
      · simp at h
      · simp at h
  · intro hheld ht
    subst hheld
    have hfind : site.streamerList.find? (fun s => s.uid == streamer.uid) = some streamer :=
      ht
    have hget : (site.captureClosed streamer Held.tracked filename
        (StatResult.stats size)).1.get? streamer.uid
        = some { streamer with filename := "", captureProcess := none } := by
      simp only [Site.captureClosed, hsmall, if_true, Site.storeCapInfo, Site.modify,
        Site.get?]
      rw [find_updateFirst streamer.uid
        (fun s => { s with filename := "", captureProcess := none }) (fun _ => rfl), hfind]
      rfl
    refine ⟨hget, by rw [hget]; rfl, ?_⟩
    intro i t hi hne
    simp only [Site.captureClosed, hsmall, if_true, Site.storeCapInfo, Site.modify]
    exact updateFirst_other streamer.uid
      (fun s => { s with filename := "", captureProcess := none }) site.streamerList i t
      hi hne
  · intro hheld
    subst hheld
    simp [Site.captureClosed, hsmall, Site.storeCapInfo]

theorem captureClosed_small_file_witness :
    ((demoRecording.captureClosed
        { demoCapturing "alice" 0 with filename := "alice_20200101.ts" } Held.tracked
        "alice_20200101" (StatResult.stats 2097152)).1.get? "alice"
      = some { demoCapturing "alice" 0 with filename := "", captureProcess := none })
    ∧ (demoReAdded.captureClosed
        { demoCapturing "alice" 0 with filename := "alice_20200101.ts" } Held.detached
        "alice_20200101" (StatResult.stats 2097152)).1.streamerList
      = demoReAdded.streamerList :=
  ⟨((captureClosed_small_file demoRecording
      { demoCapturing "alice" 0 with filename := "alice_20200101.ts" } Held.tracked
      "alice_20200101" 2097152 (by decide)).2.2.2.1 rfl (by decide)).1,
   (captureClosed_small_file demoReAdded
      { demoCapturing "alice" 0 with filename := "alice_20200101.ts" } Held.detached
      "alice_20200101" 2097152 (by decide)).2.2.2.2 rfl⟩

/-! ## The size tests in exact arithmetic -/

theorem roundMB_eq_floor (size : Nat) :
    (roundMB size : Int) = ⌊(size : ℚ) / 1048576 + 1 / 2⌋ := by
  unfold roundMB
  have h : (size : ℚ) / 1048576 + 1 / 2 = ((size + 524288 : Nat) : ℚ) / ((1048576 : Nat) : ℚ) := by
    push_cast
    ring
  rw [h, Rat.floor_natCast_div_natCast]
  norm_cast

theorem belowMinSize_iff (size minSize : Nat) :
    belowMinSize size minSize = true ↔ (size : ℚ) / 1048576 < (minSize : ℚ) := by
  unfold belowMinSize
  rw [decide_eq_true_iff, div_lt_iff₀ (by norm_num)]
  norm_cast

/-! ## The post-process queue: claim C11 -/

/-- C11: when a capture process exits and its output file has at least `minSize`
megabytes, the handler puts exactly one entry (site, streamer, file name) at the tail of
`dvr.postProcessQ`, behind the entries that were there, and calls `dvr.postProcess()` once
if the queue was empty before and not at all otherwise; the registry is left as it was.
This holds whether the registry still holds the record of the capture or not. -/
theorem captureClosed_enqueues (site : Site) (streamer : Streamer) (held : Held)
    (filename : String) (size : Nat) (hbig : belowMinSize size site.dvr.minSize = false) :
    (site.captureClosed streamer held filename (StatResult.stats size)).1.dvr.postProcessQ
        = site.dvr.postProcessQ
            ++ [{ site := site.siteName, streamer := streamer, filename := filename }]
    ∧ ((site.captureClosed streamer held filename (StatResult.stats size)).2.count
          Event.postProcess
        = if site.dvr.postProcessQ = [] then 1 else 0)
    ∧ (site.captureClosed streamer held filename (StatResult.stats size)).1.streamerList
        = site.streamerList := by
  have hres : site.captureClosed streamer held filename (StatResult.stats size)
      = ({ site with
            dvr := { site.dvr with
              postProcessQ :=
                site.dvr.postProcessQ
                  ++ [{ site := site.siteName, streamer := streamer,
                        filename := filename }] } },
         site.refresh streamer.uid none
           ++ (if (site.dvr.postProcessQ
                    ++ [({ site := site.siteName, streamer := streamer,
                           filename := filename } : PostProcessEntry)]).length = 1
               then [Event.postProcess] else [])) := by
    simp [Site.captureClosed, hbig]
  rw [hres]
  refine ⟨rfl, ?_, rfl⟩
  have hrefresh : (site.refresh streamer.uid none).count Event.postProcess = 0 := by
    unfold Site.refresh
    split <;> simp
  simp only [List.count_append, hrefresh, Nat.zero_add, List.length_append,
    List.length_singleton]
  cases hq : site.dvr.postProcessQ with
  | nil => simp
  | cons e rest => simp

theorem captureClosed_enqueues_witness :
    (demoRecording.captureClosed
        { demoCapturing "alice" 0 with filename := "alice_20200101.ts" } Held.tracked
        "alice_20200101"
        (StatResult.stats 52428800)).1.dvr.postProcessQ
      = demoRecording.dvr.postProcessQ
          ++ [{ site := demoRecording.siteName,
                streamer := { demoCapturing "alice" 0 with filename := "alice_20200101.ts" },
                filename := "alice_20200101" }]
    ∧ ((demoRecording.captureClosed
          { demoCapturing "alice" 0 with filename := "alice_20200101.ts" } Held.tracked
          "alice_20200101"
          (StatResult.stats 52428800)).2.count Event.postProcess
        = if demoRecording.dvr.postProcessQ = [] then 1 else 0)
    ∧ (demoRecording.captureClosed
          { demoCapturing "alice" 0 with filename := "alice_20200101.ts" } Held.tracked
          "alice_20200101"
          (StatResult.stats 52428800)).1.streamerList
        = demoRecording.streamerList :=
  captureClosed_enqueues demoRecording
    { demoCapturing "alice" 0 with filename := "alice_20200101.ts" } Held.tracked
    "alice_20200101" 52428800 (by decide)

/-! ## Adding streamers: claims C12 to C14 -/

theorem addStreamer_tracked (site : Site) (id : Id) (list : List String) (options : Options)
    (h : site.has id.uid = true) :
    site.addStreamer id list options
      = (site, !list.contains id.uid,
         if !list.contains id.uid then
           [Event.info (Msg.addedToList id.nm (options.isTemp = some true))]
         else [Event.err (Msg.alreadyInList id.nm)]) := by
  simp [Site.addStreamer, h]

theorem addStreamer_untracked (site : Site) (id : Id) (list : List String)
    (options : Options) (h : site.has id.uid = false) :
    (site.addStreamer id list options).1
        = { site with streamerList := site.streamerList ++ [site.newRecord id options] }
    ∧ (site.addStreamer id list options).2.1 = !list.contains id.uid := by
  simp [Site.addStreamer, h, Site.newRecord]

theorem has_append_new (site : Site) (s : Streamer) (uid : String) (hs : s.uid = uid) :
    Site.has { site with streamerList := site.streamerList ++ [s] } uid = true := by
  simp only [Site.has, Site.get?, List.find?_append]
  cases site.streamerList.find? (fun t => t.uid == uid) with
  | some t => rfl
  | none => simp [List.find?, hs]

theorem listOf_storeList (site : Site) (options : Options) (list : List String) :
    (site.storeList options list).listOf options = list := by
  unfold Site.storeList Site.listOf
  split <;> simp [*]

theorem has_storeList (site : Site) (options : Options) (list : List String)
    (uid : String) : (site.storeList options list).has uid = site.has uid := by
  unfold Site.storeList
  split <;> rfl

theorem streamerList_storeList (site : Site) (options : Options) (list : List String) :
    (site.storeList options list).streamerList = site.streamerList := by
  unfold Site.storeList
  split <;> rfl

theorem filter_uid_of_untracked (site : Site) (uid : String) (h : site.has uid = false) :
    site.streamerList.filter (fun s => s.uid == uid) = [] := by
  have hnone : site.streamerList.find? (fun s => s.uid == uid) = none := by
    simpa [Site.has, Site.get?] using h
  rw [List.filter_eq_nil_iff]
  intro t ht
  exact List.find?_eq_none.mp hnone t ht

theorem updateList_add_eq (site : Site) (id : Id) (options : Options)
    (hadd : options.add = some true) (hpause : options.pause = 0) :
    site.updateList id options
      = if (site.addStreamer id (site.listOf options) options).2.1 then
          ((site.addStreamer id (site.listOf options) options).1.storeList options
              (site.listOf options ++ [id.uid]),
           !(options.isTemp = some true),
           (site.addStreamer id (site.listOf options) options).2.2)
        else
          ((site.addStreamer id (site.listOf options) options).1, false,
           (site.addStreamer id (site.listOf options) options).2.2) := by
  unfold Site.updateList
  simp [hadd, hpause]

theorem add_twice_aux (site : Site) (id : Id) (options : Options)
    (hadd : options.add = some true) (hpause : options.pause = 0)
    (hnew : site.has id.uid = false) :
    ∃ list1 : List String,
      (list1 = site.listOf options ∨ list1 = site.listOf options ++ [id.uid])
      ∧ list1.contains id.uid = true
      ∧ ((site.listOf options).contains id.uid = false →
          list1 = site.listOf options ++ [id.uid])
      ∧ ((site.listOf options).contains id.uid = true → list1 = site.listOf options)
      ∧ (site.updateList id options).1.listOf options = list1
      ∧ (site.updateList id options).1.streamerList
          = site.streamerList ++ [site.newRecord id options]
      ∧ (site.updateList id options).1.has id.uid = true := by
  obtain ⟨h1, h2⟩ := addStreamer_untracked site id (site.listOf options) options hnew
  rw [updateList_add_eq site id options hadd hpause, h2]
  cases hc : (site.listOf options).contains id.uid with
  | false =>
    refine ⟨site.listOf options ++ [id.uid], Or.inr rfl, by simp, fun _ => rfl,
      fun h => by simp at h, ?_, ?_, ?_⟩
    · simp only [Bool.not_false, if_true]
      exact listOf_storeList _ _ _
    · simp only [Bool.not_false, if_true]
      rw [streamerList_storeList, h1]
    · simp only [Bool.not_false, if_true]
      rw [has_storeList, h1]
      exact has_append_new site _ id.uid rfl
  | true =>
    refine ⟨site.listOf options, Or.inl rfl, hc, fun h => by simp at h, fun _ => rfl,
      ?_, ?_, ?_⟩
    · simp only [Bool.not_true, Bool.false_eq_true, if_false]
      rw [h1]
      unfold Site.listOf
      split <;> rfl
    · simp only [Bool.not_true, Bool.false_eq_true, if_false]
      rw [h1]
    · simp only [Bool.not_true, Bool.false_eq_true, if_false]
      rw [h1]
      exact has_append_new site _ id.uid rfl

/-- C12, as stated, fails: the configuration file lists "alice" twice and she was removed
with `isTemp` set, so her uid is not tracked while the persisted list names her twice.  Two
successive add requests leave one registry record, but two occurrences of the uid in the
list, and the first request is reported as a duplicate already. -/
theorem add_twice_listed_twice :
    demoListedTwice.has "alice" = false
    ∧ demoListedTwice.listOf demoAdd = ["alice", "alice"]
    ∧ (((demoListedTwice.updateList ⟨"alice", "alice"⟩ demoAdd).1.updateList
        ⟨"alice", "alice"⟩ demoAdd).1.streamerList.filter
          (fun s => s.uid == "alice")).length = 1
    ∧ (((demoListedTwice.updateList ⟨"alice", "alice"⟩ demoAdd).1.updateList
        ⟨"alice", "alice"⟩ demoAdd).1.listOf demoAdd).count "alice" = 2
    ∧ Event.err (Msg.alreadyInList "alice")
        ∈ (demoListedTwice.updateList ⟨"alice", "alice"⟩ demoAdd).2.2 := by
  decide

/-- C12, amended: two successive add requests (`updateList` with `add` set, the same
options) for a uid that is not in the registry, and at most once in the target list, leave
exactly one registry record and exactly one occurrence in the list; in the second request
`addStreamer` returns false and reports the duplicate, `updateList` returns not-dirty, and
the whole state (registry and both lists) is what the first request left. -/
theorem add_twice (site : Site) (id : Id) (options : Options)
    (hadd : options.add = some true) (hpause : options.pause = 0)
    (hnew : site.has id.uid = false) (hlist : (site.listOf options).count id.uid ≤ 1) :
    (((site.updateList id options).1.updateList id options).1.streamerList.filter
        (fun s => s.uid == id.uid)).length = 1
    ∧ (((site.updateList id options).1.updateList id options).1.listOf options).count id.uid
        = 1
    ∧ ((site.updateList id options).1.addStreamer id
          ((site.updateList id options).1.listOf options) options).2.1 = false
    ∧ Event.err (Msg.alreadyInList id.nm)
        ∈ ((site.updateList id options).1.updateList id options).2.2
    ∧ ((site.updateList id options).1.updateList id options).2.1 = false
    ∧ ((site.updateList id options).1.updateList id options).1
        = (site.updateList id options).1 := by
  obtain ⟨list1, hor, hc1, hfalse, htrue, hl1, hreg, hhas⟩ :=
    add_twice_aux site id options hadd hpause hnew
  have hsecond := addStreamer_tracked (site.updateList id options).1 id
    ((site.updateList id options).1.listOf options) options hhas
  rw [hl1, hc1] at hsecond
  simp only [Bool.not_true, Bool.false_eq_true, if_false] at hsecond
  have hupd : (site.updateList id options).1.updateList id options
      = ((site.updateList id options).1, false, [Event.err (Msg.alreadyInList id.nm)]) := by
    rw [updateList_add_eq _ id options hadd hpause, hl1, hsecond]
    simp
  rw [hupd]
  refine ⟨?_, ?_, by rw [hl1, hsecond], by simp, rfl, rfl⟩
  · simp only [hreg, List.filter_append, filter_uid_of_untracked site id.uid hnew]
    simp [Site.newRecord]
  · simp only [hl1]
    cases hc : (site.listOf options).contains id.uid with
    | false =>
      rw [hfalse hc, List.count_append]
      have h0 : (site.listOf options).count id.uid = 0 := by
        rw [List.count_eq_zero]
        intro hin
        have : (site.listOf options).contains id.uid = true := by simpa using hin
        rw [hc] at this
        exact Bool.noConfusion this
      rw [h0]
      simp
    | true =>
      rw [htrue hc]
      have hpos : 0 < (site.listOf options).count id.uid := by
        rw [List.count_pos_iff]
        simpa using hc
      omega

theorem add_twice_witness :
    (((demoSite.updateList ⟨"alice", "alice"⟩ demoAdd).1.updateList ⟨"alice", "alice"⟩
        demoAdd).1.streamerList.filter (fun s => s.uid == "alice")).length = 1
    ∧ (((demoSite.updateList ⟨"alice", "alice"⟩ demoAdd).1.updateList ⟨"alice", "alice"⟩
        demoAdd).1.listOf demoAdd).count "alice" = 1
    ∧ ((demoSite.updateList ⟨"alice", "alice"⟩ demoAdd).1.addStreamer ⟨"alice", "alice"⟩
          ((demoSite.updateList ⟨"alice", "alice"⟩ demoAdd).1.listOf demoAdd) demoAdd).2.1
        = false
    ∧ Event.err (Msg.alreadyInList "alice")
        ∈ ((demoSite.updateList ⟨"alice", "alice"⟩ demoAdd).1.updateList ⟨"alice", "alice"⟩
            demoAdd).2.2
    ∧ ((demoSite.updateList ⟨"alice", "alice"⟩ demoAdd).1.updateList ⟨"alice", "alice"⟩
        demoAdd).2.1 = false
    ∧ ((demoSite.updateList ⟨"alice", "alice"⟩ demoAdd).1.updateList ⟨"alice", "alice"⟩
        demoAdd).1 = (demoSite.updateList ⟨"alice", "alice"⟩ demoAdd).1 :=
  add_twice demoSite ⟨"alice", "alice"⟩ demoAdd rfl rfl (by decide) (by decide)

/-- C13, as stated, fails in both directions: for "alice", tracked since start-up, an add
to the temporary list makes `addStreamer` return true (no duplicate is reported); for
"bob", not tracked but still named in the temporary list, `addStreamer` returns false and
reports a duplicate although it inserts the record. -/
theorem addStreamer_follows_list :
    demoStartup.has "alice" = true
    ∧ (demoStartup.addStreamer ⟨"alice", "alice"⟩ demoStartup.tempList demoAddTemp).2.1
        = true
    ∧ (demoStartup.addStreamer ⟨"alice", "alice"⟩ demoStartup.tempList demoAddTemp).2.2
        = [Event.info (Msg.addedToList "alice" true)]
    ∧ demoStale.has "bob" = false
    ∧ (demoStale.addStreamer ⟨"bob", "bob"⟩ demoStale.tempList demoAddTemp).2.1 = false
    ∧ Event.err (Msg.alreadyInList "bob")
        ∈ (demoStale.addStreamer ⟨"bob", "bob"⟩ demoStale.tempList demoAddTemp).2.2
    ∧ (demoStale.addStreamer ⟨"bob", "bob"⟩ demoStale.tempList demoAddTemp).1.has "bob"
        = true := by
  decide

/-- C13, amended: `addStreamer` returns true exactly when the uid is not in the list it is
given, and reports a duplicate when it is; it inserts a record with state Offline,
`paused = false` and no capture process, at the end of the registry, exactly when the uid
is not in the registry, and leaves the site as it was when the uid is in the registry. -/
theorem addStreamer_result (site : Site) (id : Id) (list : List String)
    (options : Options) :
    ((site.addStreamer id list options).2.1 = true ↔ id.uid ∉ list)
    ∧ (id.uid ∈ list →
        Event.err (Msg.alreadyInList id.nm) ∈ (site.addStreamer id list options).2.2)
    ∧ (site.has id.uid = false →
        (site.addStreamer id list options).1.streamerList
            = site.streamerList ++ [site.newRecord id options]
        ∧ (site.newRecord id options).state = "Offline"
        ∧ (site.newRecord id options).paused = some false
        ∧ (site.newRecord id options).captureProcess = none)
    ∧ (site.has id.uid = true → (site.addStreamer id list options).1 = site) := by
  refine ⟨?_, ?_, ?_, ?_⟩
  · cases h : site.has id.uid with
    | true => rw [addStreamer_tracked site id list options h]; simp
    | false => rw [(addStreamer_untracked site id list options h).2]; simp
  · intro hin
    have hc : list.contains id.uid = true := by simpa using hin
    cases h : site.has id.uid with
    | true => rw [addStreamer_tracked site id list options h]; simp [hc, hin]
    | false => simp [Site.addStreamer, h, hc, hin]
  · intro h
    exact ⟨by rw [(addStreamer_untracked site id list options h).1], rfl, rfl, rfl⟩
  · intro h
    rw [addStreamer_tracked site id list options h]

theorem addStreamer_result_witness :
    (demoStartup.addStreamer ⟨"alice", "alice"⟩ demoStartup.tempList demoAddTemp).1
      = demoStartup :=
  (addStreamer_result demoStartup ⟨"alice", "alice"⟩ demoStartup.tempList demoAddTemp).2.2.2
    (by decide)

theorem haltCapture_eq_self (site : Site) (uid : String) :
    site.haltCapture uid = (site, (site.haltCapture uid).2) := by
  have h := haltCapture_fst site uid
  exact Prod.ext h rfl

theorem addStreamer_lists (site : Site) (id : Id) (list : List String) (options : Options) :
    (site.addStreamer id list options).1.siteConfig = site.siteConfig
    ∧ (site.addStreamer id list options).1.tempList = site.tempList := by
  cases h : site.has id.uid with
  | true => rw [addStreamer_tracked site id list options h]; exact ⟨rfl, rfl⟩
  | false => rw [(addStreamer_untracked site id list options h).1]; exact ⟨rfl, rfl⟩

theorem updateList_pause_eq (site : Site) (id : Id) (options : Options)
    (hpause : 0 < options.pause) :
    (site.updateList id options).2.1 = false
    ∧ (site.updateList id options).1.siteConfig = site.siteConfig
    ∧ (site.updateList id options).1.tempList = site.tempList := by
  unfold Site.updateList
  simp only [gt_iff_lt, hpause, if_true]
  split
  · split
    · rw [haltCapture_eq_self]
      exact ⟨rfl, rfl, rfl⟩
    · split
      · exact ⟨rfl, rfl, rfl⟩
      · exact ⟨rfl, rfl, rfl⟩
  · exact ⟨rfl, rfl, rfl⟩

/-- C14: `updateList` with `add` set returns dirty only when the uid was appended to the
persisted list `siteConfig.streamers` (and the request was not a temporary one); with
`isTemp` set it returns not-dirty and leaves the persisted list as it was. -/
theorem updateList_add_dirty (site : Site) (id : Id) (options : Options)
    (hadd : options.add = some true) :
    ((site.updateList id options).2.1 = true →
        options.isTemp ≠ some true
        ∧ (site.updateList id options).1.siteConfig.streamers
            = site.siteConfig.streamers ++ [id.uid])
    ∧ (options.isTemp = some true →
        (site.updateList id options).2.1 = false
        ∧ (site.updateList id options).1.siteConfig.streamers
            = site.siteConfig.streamers) := by
  by_cases hpause : 0 < options.pause
  · obtain ⟨h1, h2, _⟩ := updateList_pause_eq site id options hpause
    rw [h1, h2]
    exact ⟨fun h => Bool.noConfusion h, fun _ => ⟨rfl, rfl⟩⟩
  · have hp0 : options.pause = 0 := by omega
    obtain ⟨hcfg, _⟩ := addStreamer_lists site id (site.listOf options) options
    rw [updateList_add_eq site id options hadd hp0]
    by_cases htemp : options.isTemp = some true
    · split
      · simp [htemp, Site.storeList, hcfg]
      · simp [htemp, hcfg]
    · split
      · simp [htemp, Site.storeList, hcfg, Site.listOf]
      · simp [htemp, hcfg]

theorem updateList_add_dirty_witness :
    (demoSite.updateList ⟨"alice", "alice"⟩ demoAdd).2.1 = true
    ∧ demoAdd.isTemp ≠ some true
    ∧ (demoSite.updateList ⟨"alice", "alice"⟩ demoAdd).1.siteConfig.streamers
        = demoSite.siteConfig.streamers ++ ["alice"] :=
  ⟨by decide,
   (updateList_add_dirty demoSite ⟨"alice", "alice"⟩ demoAdd rfl).1 (by decide)⟩

/-! ## Removing streamers: claims C15 and C16 -/

/-- C15 at the failing input: "bob" is a temporary streamer (tracked, in `tempList`, not
in the persisted list); the remove request deletes the record, but `tempList` still holds
"bob", because the list is only rewritten when the uid is in `siteConfig.streamers`.  The
removal of the persisted "alice" takes her out of the registry and of her list. -/
theorem updateList_remove_temp_keeps_tempList :
    demoWithTemp.has "bob" = true
    ∧ demoWithTemp.tempList = ["bob"]
    ∧ demoWithTemp.siteConfig.streamers = ["alice"]
    ∧ (demoWithTemp.updateList ⟨"bob", "bob"⟩ demoRemoveTemp).1.has "bob" = false
    ∧ (demoWithTemp.updateList ⟨"bob", "bob"⟩ demoRemoveTemp).1.tempList = ["bob"]
    ∧ (demoWithTemp.updateList ⟨"alice", "alice"⟩ demoRemove).1.has "alice" = false
    ∧ (demoWithTemp.updateList ⟨"alice", "alice"⟩ demoRemove).1.siteConfig.streamers = [] := by
  decide

theorem eraseP_eq_filter_of_nodup (uid : String) :
    ∀ (L : List Streamer), (L.map (fun t => t.uid)).Nodup →
      L.eraseP (fun t => t.uid == uid) = L.filter (fun t => t.uid != uid) := by
  intro L
  induction L with
  | nil => intro _; rfl
  | cons hd tl ih =>
    intro hnd
    have hnd2 := List.nodup_cons.mp hnd
    cases hb : (hd.uid == uid) with
    | true =>
      have huid : hd.uid = uid := by simpa using hb
      have hall : ∀ t ∈ tl, (t.uid != uid) = true := by
        intro t ht
        have hne : t.uid ≠ uid := by
          intro heq
          apply hnd2.1
          show hd.uid ∈ _
          rw [huid, ← heq]
          exact List.mem_map_of_mem (fun t => t.uid) ht
        simpa using hne
      simp only [List.eraseP_cons, hb, cond_true, List.filter_cons, bne, Bool.not_true,
        Bool.false_eq_true, if_false]
      exact (List.filter_eq_self.mpr hall).symm
    | false =>
      simp only [List.eraseP_cons, hb, cond_false, List.filter_cons, bne, Bool.not_false,
        if_true]
      rw [ih hnd2.2]
      rfl

/-- C16: `removeStreamer` for a tracked streamer with a live capture returns true and
sends exactly one `SIGINT`, to that streamer's process; the signal is the one of
`haltCapture` on the registry that still holds the record, it comes before the render of
the state without the record, and a halt on the state that is returned finds nothing to
signal; `getStreamerList()` is then the former list without the streamer, the other
records unchanged and in the same order. -/
theorem removeStreamer_halts_then_deletes (site : Site) (id : Id) (s : Streamer)
    (cp : CaptureProcess) (hwf : site.WellFormed) (hs : site.get? id.uid = some s)
    (hcp : s.captureProcess = some cp) (hpp : s.postProcess = 0) :
    (site.removeStreamer id).2.1 = true
    ∧ kills (site.removeStreamer id).2.2 = [Event.kill id.uid cp.pid "SIGINT"]
    ∧ (site.removeStreamer id).2.2
        = Event.info (Msg.removedFromList id.nm) :: (site.haltCapture id.uid).2
            ++ (site.delete id.uid).render true
    ∧ ((site.removeStreamer id).1.haltCapture id.uid).2 = []
    ∧ (site.removeStreamer id).1.getStreamerList
        = site.getStreamerList.filter (fun t => t.uid != id.uid)
    ∧ s ∉ (site.removeStreamer id).1.getStreamerList := by
  have hhas : site.has id.uid = true := by simp [Site.has, hs]
  have hhalt : site.haltCapture id.uid = (site, [Event.kill id.uid cp.pid "SIGINT"]) := by
    have hsu := get?_uid site id.uid s hs
    unfold Site.haltCapture
    rw [hs]
    simp only [hcp, hpp, if_true, hsu]
  have hres : site.removeStreamer id
      = (site.delete id.uid, true,
         Event.info (Msg.removedFromList id.nm) :: [Event.kill id.uid cp.pid "SIGINT"]
           ++ (site.delete id.uid).render true) := by
    unfold Site.removeStreamer
    simp [hhas, hhalt]
  have hlist : (site.delete id.uid).streamerList
      = site.streamerList.filter (fun t => t.uid != id.uid) := by
    unfold Site.delete
    exact eraseP_eq_filter_of_nodup id.uid site.streamerList hwf
  rw [hres, hhalt]
  refine ⟨rfl, ?_, rfl, ?_, hlist, ?_⟩
  · unfold kills Site.render
    split <;> simp
  · have hnone : (site.delete id.uid).get? id.uid = none := by
      unfold Site.get?
      rw [hlist, List.find?_eq_none]
      intro t ht
      have := (List.mem_filter.mp ht).2
      simpa using this
    unfold Site.haltCapture
    rw [hnone]
  · show s ∉ (site.delete id.uid).streamerList
    rw [hlist]
    intro hin
    have := (List.mem_filter.mp hin).2
    have hsu := get?_uid site id.uid s hs
    simp [hsu] at this

theorem removeStreamer_halts_then_deletes_witness :
    (({ demoSite with streamerList := [demoCapturing "bob" 0, demoCapturing "alice" 1] }
        : Site).removeStreamer ⟨"alice", "alice"⟩).1.getStreamerList
      = [demoCapturing "bob" 0]
    ∧ kills (({ demoSite with
        streamerList := [demoCapturing "bob" 0, demoCapturing "alice" 1] }
        : Site).removeStreamer ⟨"alice", "alice"⟩).2.2
      = [Event.kill "alice" (some 4242) "SIGINT"] :=
  ⟨(removeStreamer_halts_then_deletes
      { demoSite with streamerList := [demoCapturing "bob" 0, demoCapturing "alice" 1] }
      ⟨"alice", "alice"⟩ (demoCapturing "alice" 1) ⟨some 4242⟩
      (by decide) (by decide) rfl rfl).2.2.2.2.1,
   by decide⟩

/-! ## Pause and unpause: claims C17 to C19 -/

theorem get?_modify (site : Site) (uid : String) (f : Streamer → Streamer)
    (hf : ∀ t, (f t).uid = t.uid) :
    (site.modify uid f).get? uid = (site.get? uid).map f := by
  unfold Site.modify Site.get?
  exact find_updateFirst uid f hf site.streamerList

/-- C17: `updateList` with `pause` 1 or 2 returns not-dirty and leaves the persisted list,
the temporary list and the keys of the registry as they were, for a tracked and for an
untracked uid; for a tracked uid `pause = 1` sets `paused = true` and calls `haltCapture`
for it (one `SIGINT` when its capture is live), `pause = 2` sets `paused = false`; every
record with another uid stays as it was, in its place. -/
theorem updateList_pause_frame (site : Site) (id : Id) (options : Options)
    (hp : options.pause = 1 ∨ options.pause = 2) :
    (site.updateList id options).2.1 = false
    ∧ (site.updateList id options).1.siteConfig.streamers = site.siteConfig.streamers
    ∧ (site.updateList id options).1.tempList = site.tempList
    ∧ (site.updateList id options).1.streamerList.map (fun t => t.uid)
        = site.streamerList.map (fun t => t.uid)
    ∧ (∀ s, site.get? id.uid = some s → options.pause = 1 →
        (site.updateList id options).1.get? id.uid = some { s with paused := some true }
        ∧ (site.updateList id options).2.2
            = Event.info (Msg.paused id.nm)
                :: ((site.updateList id options).1.haltCapture id.uid).2
                ++ (site.updateList id options).1.render true
        ∧ (∀ cp, s.captureProcess = some cp → s.postProcess = 0 →
            kills (site.updateList id options).2.2 = [Event.kill id.uid cp.pid "SIGINT"]))
    ∧ (∀ s, site.get? id.uid = some s → options.pause = 2 →
        (site.updateList id options).1.get? id.uid = some { s with paused := some false })
    ∧ (∀ (i : Nat) (t : Streamer), site.streamerList[i]? = some t → t.uid ≠ id.uid →
        (site.updateList id options).1.streamerList[i]? = some t) := by
  have hpos : 0 < options.pause := by omega
  obtain ⟨h1, h2, h3⟩ := updateList_pause_eq site id options hpos
  have hres : site.updateList id options
      = if site.has id.uid then
          if options.pause = 1 then
            (site.modify id.uid (fun s => { s with paused := some true }), false,
             [Event.info (Msg.paused id.nm)]
               ++ ((site.modify id.uid (fun s => { s with paused := some true })).haltCapture
                    id.uid).2
               ++ (site.modify id.uid (fun s => { s with paused := some true })).render true)
          else
            (site.modify id.uid (fun s => { s with paused := some false }), false,
             [Event.info (Msg.unpaused id.nm)]
               ++ (site.modify id.uid (fun s => { s with paused := some false })).refresh
                    id.uid (some options)
               ++ (site.modify id.uid (fun s => { s with paused := some false })).render true)
        else (site, false, []) := by
    unfold Site.updateList
    simp only [gt_iff_lt, hpos, if_true]
    split
    · split
      · rw [haltCapture_eq_self]
      · rename_i hne1
        have h2 : options.pause = 2 := by omega
        simp [h2]
    · rfl
  refine ⟨h1, by rw [h2], h3, ?_, ?_, ?_, ?_⟩
  · rw [hres]
    split
    · split
      · exact updateFirst_uids id.uid (fun s => { s with paused := some true })
          (fun _ => rfl) site.streamerList
      · exact updateFirst_uids id.uid (fun s => { s with paused := some false })
          (fun _ => rfl) site.streamerList
    · rfl
  · intro s hs hp1
    have hhas : site.has id.uid = true := by simp [Site.has, hs]
    rw [hres]
    simp only [hhas, hp1, if_true]
    have hget : (site.modify id.uid (fun s => { s with paused := some true })).get? id.uid
        = some { s with paused := some true } := by
      rw [get?_modify site id.uid (fun s => { s with paused := some true }) (fun _ => rfl),
        hs]
      rfl
    refine ⟨hget, by simp, ?_⟩
    intro cp hcp hpp
    have hsu := get?_uid site id.uid s hs
    have hhalt : ((site.modify id.uid (fun s => { s with paused := some true })).haltCapture
        id.uid).2 = [Event.kill id.uid cp.pid "SIGINT"] := by
      rw [haltCapture_snd _ id.uid _ hget]
      unfold Streamer.haltEvents
      simp [hcp, hpp, hsu]
    rw [hhalt]
    unfold kills Site.render
    split <;> simp
  · intro s hs hp2
    have hhas : site.has id.uid = true := by simp [Site.has, hs]
    have hne : ¬ options.pause = 1 := by omega
    rw [hres]
    simp only [hhas, hne, if_true, if_false]
    rw [get?_modify site id.uid (fun s => { s with paused := some false }) (fun _ => rfl),
      hs]
    rfl
  · intro i t ht hne
    rw [hres]
    split
    · split
      · exact updateFirst_other id.uid (fun s => { s with paused := some true })
          site.streamerList i t ht hne
      · exact updateFirst_other id.uid (fun s => { s with paused := some false })
          site.streamerList i t ht hne
    · exact ht

theorem updateList_pause_frame_witness :
    (({ demoSite with streamerList := [demoCapturing "bob" 0, demoCapturing "alice" 1] }
        : Site).updateList ⟨"alice", "alice"⟩ demoPause).1.get? "alice"
      = some { demoCapturing "alice" 1 with paused := some true } :=
  ((updateList_pause_frame
      { demoSite with streamerList := [demoCapturing "bob" 0, demoCapturing "alice" 1] }
      ⟨"alice", "alice"⟩ demoPause (Or.inl rfl)).2.2.2.2.1
    (demoCapturing "alice" 1) (by decide) rfl).1

/-- C18, as stated, fails: "alice" is tracked and Offline; unpausing her with `updateList`
(`pause = 2`) starts a status check for her all the same. -/
theorem updateList_unpause_offline_refreshes :
    (demoStartup.get? "alice").map (fun s => s.state) = some "Offline"
    ∧ Event.checkStreamerState "alice"
        ∈ (demoStartup.updateList ⟨"alice", "alice"⟩ demoUnpause).2.2
    ∧ ((demoStartup.updateList ⟨"alice", "alice"⟩ demoUnpause).1.get? "alice").map
        (fun s => s.paused) = some (some false) := by
  decide

/-- C18, amended: unpausing a tracked streamer with `updateList` (`pause = 2`) sets
`paused = false` and starts a status check for it whatever its state, Offline or not,
unless the process is exiting or `options.init` is set. -/
theorem updateList_unpause_refresh (site : Site) (id : Id) (options : Options)
    (s : Streamer) (hs : site.get? id.uid = some s) (hp : options.pause = 2) :
    (site.updateList id options).1.get? id.uid = some { s with paused := some false }
    ∧ (Event.checkStreamerState id.uid ∈ (site.updateList id options).2.2
        ↔ site.dvr.tryingToExit = false ∧ options.init ≠ some true) := by
  have hhas : site.has id.uid = true := by simp [Site.has, hs]
  have hget : (site.modify id.uid (fun s => { s with paused := some false })).get? id.uid
      = some { s with paused := some false } := by
    rw [get?_modify site id.uid (fun s => { s with paused := some false }) (fun _ => rfl),
      hs]
    rfl
  have hhas2 : (site.modify id.uid (fun s => { s with paused := some false })).has id.uid
      = true := by simp [Site.has, hget]
  have hres : site.updateList id options
      = (site.modify id.uid (fun s => { s with paused := some false }), false,
         [Event.info (Msg.unpaused id.nm)]
           ++ (site.modify id.uid (fun s => { s with paused := some false })).refresh
                id.uid (some options)
           ++ (site.modify id.uid (fun s => { s with paused := some false })).render true) := by
    unfold Site.updateList
    simp [hp, hhas]
  rw [hres]
  refine ⟨hget, ?_⟩
  have hdvr : (site.modify id.uid (fun s => { s with paused := some false })).dvr = site.dvr :=
    rfl
  simp only [Site.refresh, hhas2, hdvr, Site.render, List.mem_append, List.mem_cons,
    List.mem_singleton, Bool.and_true]
  cases hexit : site.dvr.tryingToExit <;> by_cases hinit : options.init = some true <;>
    cases htui : site.dvr.tuiEnable <;> simp [hinit]

theorem updateList_unpause_refresh_witness :
    (demoStartup.updateList ⟨"alice", "alice"⟩ demoUnpause).1.get? "alice"
      = some { Basic.startupRecord demoStartup "alice" with paused := some false }
    ∧ (Event.checkStreamerState "alice"
          ∈ (demoStartup.updateList ⟨"alice", "alice"⟩ demoUnpause).2.2
        ↔ demoStartup.dvr.tryingToExit = false ∧ demoUnpause.init ≠ some true) :=
  updateList_unpause_refresh demoStartup ⟨"alice", "alice"⟩ demoUnpause
    (Basic.startupRecord demoStartup "alice") (by decide) rfl

/-- C19 at every input: the loop head of `Site.pause` iterates over the method
`this.streamerList.values` instead of the iterator it returns, so `pause(state)` throws a
`TypeError` before the first record is visited: no `paused` is set, nothing is halted or
refreshed, and the call does not complete. -/
theorem pause_throws (site : Site) (state : Bool) :
    site.pause state = Except.error "TypeError: this.streamerList.values is not iterable" := by
  rfl

/-! ## Records made at start-up: claim C20 -/

/-- C20 at the failing input: the record that the `Basic` constructor makes for "alice"
has no `filesize`, `stuckcounter`, `isTemp` or `paused`, where the record of `addStreamer`
has 0, 0, the option and false; with a live capture found at 50 MB in three successive
passes of `checkFileSize` the start-up record gets no signal and its `stuckcounter` is
`NaN`, while the record made by `addStreamer` is halted in the third pass. -/
theorem startup_record_lacks_counters :
    demoStartup.get? "alice"
      = some { uid := "alice", nm := "alice", site := "TWITCH   ", state := "Offline",
               filename := "", captureProcess := none, postProcess := 0,
               filesize := JsNum.undefined, stuckcounter := JsNum.undefined,
               isTemp := none, paused := none }
    ∧ (demoSite.addStreamer ⟨"alice", "alice"⟩ [] demoAdd).1.get? "alice"
      = some { uid := "alice", nm := "alice", site := "TWITCH   ", state := "Offline",
               filename := "", captureProcess := none, postProcess := 0,
               filesize := JsNum.num 0, stuckcounter := JsNum.num 0,
               isTemp := some false, paused := some false }
    ∧ kills (Site.checkFileSizeRepeat stat50 3 startupScenario).2 = []
    ∧ ((Site.checkFileSizeRepeat stat50 3 startupScenario).1.get? "alice").map
        (fun s => s.stuckcounter) = some JsNum.nan
    ∧ kills (Site.checkFileSizeRepeat stat50 3 scenarioStart).2
        = [Event.kill "alice" (some 4242) "SIGINT"] := by
  decide

theorem counted_not_num (s : Streamer) (sizeMB : Nat)
    (h : ∀ k, s.stuckcounter ≠ JsNum.num k) :
    (∀ k, (s.counted sizeMB).stuckcounter ≠ JsNum.num k)
    ∧ (s.counted sizeMB).stuckcounter.ge 2 = false := by
  have hincr : ∀ k, s.stuckcounter.incr ≠ JsNum.num k := by
    intro k
    cases hsc : s.stuckcounter with
    | undefined => simp [JsNum.incr]
    | nan => simp [JsNum.incr]
    | num m => exact absurd hsc (h m)
  have hall : ∀ k, (s.counted sizeMB).stuckcounter ≠ JsNum.num k := by
    intro k
    unfold Streamer.counted
    split
    · exact hincr k
    · exact h k
  refine ⟨hall, ?_⟩
  cases hsc : (s.counted sizeMB).stuckcounter with
  | undefined => rfl
  | nan => rfl
  | num m => exact absurd hsc (hall m)

/-- For any number of passes: a live capture whose record has no numeric `stuckcounter`
(as the records of the `Basic` constructor) is never signalled by `checkFileSize` when no
size limit is configured, however often the file is found at the same size. -/
theorem no_counter_never_halted (stat : String → Option Nat) (size : Nat) :
    ∀ (n : Nat) (site : Site) (s : Streamer) (cp : CaptureProcess),
      site.WellFormed → site.Statable stat → s ∈ site.streamerList →
      s.captureProcess = some cp → s.postProcess = 0 →
      stat (site.dvr.captureDirectory ++ "/" ++ s.filename) = some size →
      site.dvr.maxSize = 0 → (∀ k, s.stuckcounter ≠ JsNum.num k) →
      killsOf s.uid (Site.checkFileSizeRepeat stat n site).2 = [] := by
  intro n
  induction n with
  | zero => intro site s cp _ _ _ _ _ _ _ _; rfl
  | succ n ih =>
    intro site s cp hwf hst hmem hcp hpp hsize hmax hnan
    obtain ⟨hwf1, hdvr1, _, hmem1, hkill⟩ :=
      checkFileSize_live stat site s cp size hwf hst hmem hcp hpp hsize
    obtain ⟨hnan1, hge⟩ := counted_not_num s (roundMB size) hnan
    have hst1 := statable_checkFileSize stat stat site hwf hst hst
    obtain ⟨hf1, hf2, hf3⟩ := Streamer.checked_fields s (roundMB size)
    have hchecked : s.checked (roundMB size) = s.counted (roundMB size) := by
      unfold Streamer.checked
      rw [hge]
      rfl
    have hrec := ih (site.checkFileSize stat).site (s.checked (roundMB size)) cp hwf1 hst1
      hmem1 (by rw [hf1, hcp]) (by rw [hf2, hpp]) (by rw [hdvr1, hf3]; exact hsize)
      (by rw [hdvr1]; exact hmax) (by rw [hchecked]; exact hnan1)
    rw [Streamer.checked_uid] at hrec
    show killsOf s.uid ((site.checkFileSize stat).events
      ++ (Site.checkFileSizeRepeat stat n (site.checkFileSize stat).site).2) = []
    rw [killsOf_append, hrec, hkill]
    simp [hge, hmax]

theorem no_counter_never_halted_witness :
    killsOf "alice" (Site.checkFileSizeRepeat stat50 7 startupScenario).2 = [] :=
  no_counter_never_halted stat50 52428800 7 startupScenario
    { Basic.startupRecord demoStartup "alice" with
      filename := "alice_20200101.ts", captureProcess := some ⟨some 4242⟩ }
    ⟨some 4242⟩ (by decide) (by decide) (by decide) rfl rfl rfl rfl
    (by intro k; exact JsNum.noConfusion)

/-! ## Stuck detection over several passes: claim C21 -/

/-- C21 at the failing input: "alice" is added, her capture is started, and four passes of
`checkFileSize` find her file at 50, 50, 51 and 51 MB.  The third pass sees the file grow
and stores 51 as the baseline, but `stuckcounter` stays 1; the fourth pass raises it to 2
and the stuck halt is sent, although the pass before it was not a zero-growth pass. -/
theorem stuck_halt_after_growth :
    roundMB 52428800 = 50 ∧ roundMB 53477376 = 51
    ∧ (Site.checkFileSizePasses [stat50, stat50, stat51, stat51] scenarioStart).map
        (fun r => (r.site.get? "alice").map (fun s => (s.filesize, s.stuckcounter)))
      = [some (JsNum.num 50, JsNum.num 0), some (JsNum.num 50, JsNum.num 1),
         some (JsNum.num 51, JsNum.num 1), some (JsNum.num 51, JsNum.num 0)]
    ∧ (Site.checkFileSizePasses [stat50, stat50, stat51, stat51] scenarioStart).map
        (fun r => kills r.events)
      = [[], [], [], [Event.kill "alice" (some 4242) "SIGINT"]]
    ∧ (Site.checkFileSizePasses [stat50, stat50, stat51, stat51] scenarioStart).map
        (fun r => decide (Event.info (Msg.terminatingStuck "alice") ∈ r.events))
      = [false, false, false, true] := by
  decide

/-- A pass of `checkFileSize` that finds the file of a live capture at another size than
the stored one stores the new size and leaves `stuckcounter` as it was: the count of
zero-growth passes is not reset. -/
theorem checkFileSize_growth_keeps_counter (stat : String → Option Nat) (site : Site)
    (s : Streamer) (cp : CaptureProcess) (size k : Nat)
    (hwf : site.WellFormed) (hst : site.Statable stat) (hmem : s ∈ site.streamerList)
    (hcp : s.captureProcess = some cp) (hpp : s.postProcess = 0)
    (hsize : stat (site.dvr.captureDirectory ++ "/" ++ s.filename) = some size)
    (hne : s.filesize ≠ JsNum.num (roundMB size))
    (hk : s.stuckcounter = JsNum.num k) (hk2 : k < 2) :
    (site.checkFileSize stat).site.get? s.uid
      = some { s with filesize := JsNum.num (roundMB size) }
    ∧ ((site.checkFileSize stat).site.get? s.uid).map (fun t => t.stuckcounter)
      = some (JsNum.num k) := by
  obtain ⟨_, _, hget, _, _⟩ :=
    checkFileSize_live stat site s cp size hwf hst hmem hcp hpp hsize
  have hse : s.filesize.strictEq (roundMB size) = false := by
    cases hf : s.filesize with
    | undefined => rfl
    | nan => rfl
    | num m =>
      rw [hf] at hne
      have : m ≠ roundMB size := fun h => hne (by rw [h])
      simp [JsNum.strictEq, this]
  have hcounted : s.counted (roundMB size) = { s with filesize := JsNum.num (roundMB size) } := by
    unfold Streamer.counted
    simp [hse]
  have hge : (s.counted (roundMB size)).stuckcounter.ge 2 = false := by
    rw [hcounted]
    show s.stuckcounter.ge 2 = false
    rw [hk]
    simp [JsNum.ge]
    omega
  have hchecked : s.checked (roundMB size) = { s with filesize := JsNum.num (roundMB size) } := by
    unfold Streamer.checked
    rw [hge, hcounted]
    rfl
  rw [hget, hchecked]
  exact ⟨rfl, by simp [hk]⟩

theorem checkFileSize_growth_keeps_counter_witness :
    (({ demoSite with streamerList := [demoCapturing "bob" 0, demoCapturing "alice" 1] }
        : Site).checkFileSize stat51).site.get? "alice"
      = some { demoCapturing "alice" 1 with filesize := JsNum.num (roundMB 53477376) } :=
  (checkFileSize_growth_keeps_counter stat51
    { demoSite with streamerList := [demoCapturing "bob" 0, demoCapturing "alice" 1] }
    (demoCapturing "alice" 1) ⟨some 4242⟩ 53477376 1
    (by decide) (by decide) (by decide) rfl rfl rfl (by decide) rfl (by decide)).1

/-! ## Termination of the batch scheduler: claim C22 -/

theorem serialize_eq_while {α : Type} (cfgBatchSize : Option Int) (nms : List α)
    (fuel : Nat) :
    Basic.serialize cfgBatchSize nms fuel
      = Basic.serializeWhile nms (Basic.batchSizeFor cfgBatchSize nms) fuel 0 [] := rfl

theorem serializeFor_negative {α : Type} (nms : List α) (batchSize : Int)
    (hneg : batchSize ≤ 0) (fuel count : Nat) :
    Basic.serializeFor nms ((count : Int) + batchSize) (fuel + 1) count count []
      = some (count, []) := by
  unfold Basic.serializeFor
  have hc : ¬ ((count : Int) < (count : Int) + batchSize ∧ count < nms.length) := by
    rintro ⟨h1, _⟩
    omega
  rw [dif_neg hc]

theorem serializeWhile_negative {α : Type} (nms : List α) (batchSize : Int)
    (hneg : batchSize ≤ 0) :
    ∀ (fuel count : Nat) (serRuns : List (List α)), count < nms.length →
      Basic.serializeWhile nms batchSize fuel count serRuns = none := by
  intro fuel
  induction fuel with
  | zero => intro count serRuns _; rfl
  | succ fuel ih =>
    intro count serRuns hlt
    unfold Basic.serializeWhile
    rw [if_pos hlt]
    cases fuel with
    | zero => rfl
    | succ fuel =>
      rw [serializeFor_negative nms batchSize hneg fuel count]
      exact ih count _ hlt

/-- C22, as stated, fails: with `batchSize: -1` and one streamer, a pass of the outer loop
takes nothing from the list and yields an empty batch, `count` stays 0, and
`Basic.serialize` returns for no amount of fuel. -/
theorem serialize_negative_never_returns :
    Basic.serializeFor ["alice"] ((0 : Int) + (-1)) 5 0 0 [] = some (0, [])
    ∧ ¬ ∃ (fuel : Nat) (runs : List (List String)),
        Basic.serialize (some (-1)) ["alice"] fuel = some runs := by
  refine ⟨by decide, ?_⟩
  rintro ⟨fuel, runs, h⟩
  rw [serialize_eq_while] at h
  have hbs : Basic.batchSizeFor (some (-1)) ["alice"] = -1 := by decide
  rw [hbs, serializeWhile_negative ["alice"] (-1) (by decide) fuel 0 [] (by decide)] at h
  exact Option.noConfusion h

theorem batchSizeFor_pos {α : Type} (cfgBatchSize : Option Int) (nms : List α)
    (hcfg : ∀ b, cfgBatchSize = some b → 0 ≤ b) (hne : nms ≠ []) :
    ∃ k : Nat, 1 ≤ k ∧ Basic.batchSizeFor cfgBatchSize nms = (k : Int) := by
  have hpos : 1 ≤ nms.length := List.length_pos.mpr hne
  cases cfgBatchSize with
  | none => exact ⟨5, by decide, rfl⟩
  | some b =>
    have hb := hcfg b rfl
    by_cases hb0 : b = 0
    · exact ⟨nms.length, hpos, by simp [Basic.batchSizeFor, hb0]⟩
    · obtain ⟨k, rfl⟩ := Int.eq_ofNat_of_zero_le hb
      exact ⟨k, by omega, by simp [Basic.batchSizeFor, hb0]⟩

theorem batchesFrom_ne_nil {α : Type} (nms : List α) (k : Nat) (hk : 1 ≤ k) :
    ∀ b ∈ batchesFrom nms k 0, b ≠ [] := by
  intro b hb
  obtain ⟨i, hi, rfl⟩ := List.mem_iff_getElem.mp hb
  have hlen := batchesFrom_getElem_length nms k i hi
  have hcount := batchesFrom_length nms k 0
  simp only [Nat.sub_zero] at hcount
  rw [hcount] at hi
  have hdm := Nat.div_add_mod (nms.length + k - 1) k
  have hmod := Nat.mod_lt (nms.length + k - 1) (show k > 0 by omega)
  generalize (nms.length + k - 1) / k = q at hdm hi
  generalize (nms.length + k - 1) % k = r at hdm hmod
  have h1 : (i + 1) * k ≤ k * q := by
    rw [Nat.mul_comm]; exact Nat.mul_le_mul_left _ hi
  have h2 : (i + 1) * k = i * k + k := by ring
  have h3 : 1 ≤ nms.length - i * k := by omega
  intro hnil
  rw [hnil] at hlen
  have : 1 ≤ min k (nms.length - i * k) := le_min hk h3
  simp at hlen
  omega

/-- C22, amended: for a configured batch size `≥ 0`, or none, `Basic.serialize` returns
(with enough fuel), no batch of the plan is empty, and every pass of its outer loop, from
any `count` below the length of the list, takes at least one uid into a non-empty batch. -/
theorem serialize_terminates (α : Type) (nms : List α) (cfgBatchSize : Option Int)
    (hcfg : ∀ b, cfgBatchSize = some b → 0 ≤ b) :
    (∃ runs : List (List α),
        (∀ fuel, nms.length + 2 ≤ fuel → Basic.serialize cfgBatchSize nms fuel = some runs)
        ∧ ∀ b ∈ runs, b ≠ [])
    ∧ (∀ (count fuel : Nat), count < nms.length → nms.length + 1 ≤ fuel →
        ∃ (count1 : Nat) (parBatch : List α),
          Basic.serializeFor nms ((count : Int) + Basic.batchSizeFor cfgBatchSize nms) fuel
              count count [] = some (count1, parBatch)
          ∧ count < count1 ∧ parBatch ≠ []) := by
  by_cases hne : nms = []
  · subst hne
    refine ⟨⟨[], ?_, by simp⟩, ?_⟩
    · intro fuel hf
      obtain ⟨fuel1, rfl⟩ : ∃ f, fuel = f + 1 := ⟨fuel - 1, by simp at hf; omega⟩
      rw [serialize_eq_while]
      simp [Basic.serializeWhile]
    · intro count fuel hc
      simp at hc
  · obtain ⟨k, hk, hbs⟩ := batchSizeFor_pos cfgBatchSize nms hcfg hne
    refine ⟨⟨batchesFrom nms k 0, ?_, batchesFrom_ne_nil nms k hk⟩, ?_⟩
    · intro fuel hf
      rw [serialize_eq_while, hbs]
      exact serialize_eq_batchesFrom nms k hk fuel hf
    · intro count fuel hc hf
      have hcast : ((count : Int) + (k : Int)) = ((count + k : Nat) : Int) := by
        push_cast; rfl
      rw [hbs, hcast,
        serializeFor_eq nms (count + k) fuel count count [] (by omega) (by omega)]
      refine ⟨_, _, rfl, by omega, ?_⟩
      intro hnil
      have hlen := congrArg List.length hnil
      simp at hlen
      omega

theorem serialize_terminates_witness :
    ∃ runs : List (List String),
      (∀ fuel, ["a", "b", "c"].length + 2 ≤ fuel →
          Basic.serialize (some 2) ["a", "b", "c"] fuel = some runs)
      ∧ ∀ b ∈ runs, b ≠ [] :=
  (serialize_terminates String ["a", "b", "c"] (some 2)
    (by intro b hb; cases hb; decide)).1

end StreamDvr
